import Mathlib

/-!
Verification development for the AltCrew Omni-Search pipeline.

The JavaScript sources embedded here are the v2.0 server (server.js), the
v3.0 dual-channel server (second document of src/unnamed/part_000) and the
shared Gemini/search helpers.  External collaborators (the Google Custom
Search provider, the Gemini generative-model provider, JSON.parse and
JSON.stringify) are modelled as oracle parameters; every provider failure
carries a message string, matching the fact that the code only ever reads
the message field of a caught error.  Wall-clock fields (time_seconds) and
console logging are outside the embedding.
-/

/-! ## JavaScript falsiness helpers

JavaScript strings are modelled as String, a nullable or possibly-missing
string field as Option String.  The JS expression a or-else b written
a || b returns b when a is null, undefined or the empty string.
-/

/-- JS a || b for two nullable strings: falls through on null and on "". -/
def jsOrO (a b : Option String) : Option String :=
  match a with
  | some s => if s = "" then b else some s
  | none => b

/-- JS a || d for a nullable string and a string default. -/
def jsOrS (a : Option String) (d : String) : String :=
  match a with
  | some s => if s = "" then d else s
  | none => d

/-- JS expr || null applied to a nullable string: "" is collapsed to null. -/
def jsFalsyOpt (a : Option String) : Option String :=
  match a with
  | some s => if s = "" then none else some s
  | none => none

/-- JS truthiness of a nullable string: null, undefined and "" are falsy. -/
def truthyS : Option String → Bool
  | none => false
  | some s => !(s == "")

/-- JS String(x) coercion of a possibly-undefined string, as used by
String.prototype.includes on an undefined argument. -/
def jsString : Option String → String
  | none => "undefined"
  | some s => s

/-- Lowercase of a string, character by character, mirroring
String.prototype.toLowerCase (and agreeing with String.toLower, whose
byte-position implementation does not reduce in the kernel). -/
def lowerStr (s : String) : String := String.mk (s.data.map Char.toLower)

/-- Lowercase a nullable string: models handle?.toLowerCase() and the
comparison keys of the merge loop. -/
def lowOpt (o : Option String) : Option String := o.map lowerStr

/-- Substring test on character lists, mirroring JS String.prototype.includes. -/
def listIsInfixB (needle : List Char) : List Char → Bool
  | [] => needle.isEmpty
  | c :: t => needle.isPrefixOf (c :: t) || listIsInfixB needle t

/-- Remove the first occurrence of the at-sign, mirroring
handle.replace(at-sign, empty-string) which replaces only the first match. -/
def removeFirstAt : List Char → List Char
  | [] => []
  | c :: rest => if c = '@' then rest else c :: removeFirstAt rest

/-! ## Model identifiers and code-fence stripping (callGemini helpers) -/

def PRIMARY_MODEL : String := "gemini-2.0-flash"

def FALLBACK_MODEL : String := "gemini-1.5-flash"

/-- A generative-model provider: model name and prompt in, raw text or a
thrown error message out. -/
def GenOracle : Type := String → String → Except String String

/-- callGemini from server.js lines 44-61: try the primary model, on a throw
try the fallback model once, on a second throw re-throw a combined error. -/
def callGemini (gen : GenOracle) (prompt : String) : Except String String :=
  match gen PRIMARY_MODEL prompt with
  | Except.ok t => Except.ok t
  | Except.error e1 =>
    match gen FALLBACK_MODEL prompt with
    | Except.ok t => Except.ok t
    | Except.error e2 =>
      Except.error ("Both models failed. Primary: " ++ e1 ++ " | Fallback: " ++ e2)

/-- The sequence of model identifiers callGemini attempts, in order: the
primary model always, the fallback model exactly when the primary throws. -/
def callGeminiTrace (gen : GenOracle) (prompt : String) : List String :=
  match gen PRIMARY_MODEL prompt with
  | Except.ok _ => [PRIMARY_MODEL]
  | Except.error _ => [PRIMARY_MODEL, FALLBACK_MODEL]

/-- The code-fence stripping regex replace applied to every model response:
each occurrence of a triple-backtick-json marker or a bare triple-backtick
marker is deleted, scanning left to right (JS alternation tries the longer
branch first at each position). -/
def stripFenceChars : List Char → List Char
  | '`' :: '`' :: '`' :: 'j' :: 's' :: 'o' :: 'n' :: rest => stripFenceChars rest
  | '`' :: '`' :: '`' :: rest => stripFenceChars rest
  | c :: rest => c :: stripFenceChars rest
  | [] => []

/-- Whitespace trimming at both ends of a character list, mirroring
String.prototype.trim. -/
def trimChars (l : List Char) : List Char :=
  ((l.dropWhile Char.isWhitespace).reverse.dropWhile Char.isWhitespace).reverse

/-- raw.replace on the fence regex followed by trim, shared by every parse
site in the code. -/
def cleanResponse (raw : String) : String :=
  String.mk (trimChars (stripFenceChars raw.data))

example : cleanResponse "```json [1] ```" = "[1]" := by decide
example : jsOrO (some "") (some "b") = some "b" := by decide
example : listIsInfixB "bc".data "abcd".data = true := by decide
example : removeFirstAt "@a@b".data = "a@b".data := by decide

/-! ## Data model

A SearchItem is one record of the search provider response: title, link,
snippet, plus the fields read out of pagemap (the first metatags object and
the first cse_image src).  A missing pagemap, metatags list or cse_image
list shows up as none in the corresponding field.  A RawHit is a SearchItem
tagged with the label of the query that produced it (the searchQuery spread
added in the page callback).
-/

structure SearchItem where
  title : String
  link : String
  snippet : String
  og_description : Option String
  og_image : Option String
  cse_image_src : Option String
deriving DecidableEq, Repr

structure RawHit extends SearchItem where
  searchQuery : String
deriving DecidableEq, Repr

/-- A deduplicated Instagram candidate as pushed onto uniqueItems
(server.js lines 284-291, part_000 lines 771-778). -/
structure Candidate where
  title : String
  link : String
  snippet : String
  ogDescription : String
  logoUrl : Option String
  sourceQuery : String
deriving DecidableEq, Repr

/-- A deduplicated open-web candidate as pushed onto uniqueWebItems
(part_000 lines 788-794): same shape minus the logo field. -/
structure CandidateW where
  title : String
  link : String
  snippet : String
  ogDescription : String
  sourceQuery : String
deriving DecidableEq, Repr

/-- Normalization of the first occurrence of a URL (server.js lines 281-291):
ogDescription is the og:description metatag defaulted to the empty string,
logoUrl is the og:image metatag falling back to the cse_image src (JS
or-chains, so empty strings also fall through). -/
def normalizeHit (h : RawHit) : Candidate :=
  { title := h.title
    link := h.link
    snippet := h.snippet
    ogDescription := jsOrS h.og_description ""
    logoUrl := jsOrO h.og_image (jsFalsyOpt h.cse_image_src)
    sourceQuery := h.searchQuery }

/-- Normalization of a first-seen open-web hit (part_000 lines 786-794). -/
def normalizeWebHit (h : RawHit) : CandidateW :=
  { title := h.title
    link := h.link
    snippet := h.snippet
    ogDescription := jsOrS h.og_description ""
    sourceQuery := h.searchQuery }

/-- The dedupe fold shared by all dedupe loops in the repository: walk the
hits in arrival order carrying the set of seen URLs, keep (normalized) the
first hit bearing each unseen URL, drop every later one, and also return
the final seen set so a second channel can continue from it. -/
def dedupeInto (norm : RawHit → β) : List RawHit → List String → List β × List String
  | [], seen => ([], seen)
  | h :: rest, seen =>
    if h.link ∈ seen then dedupeInto norm rest seen
    else
      let p := dedupeInto norm rest (h.link :: seen)
      (norm h :: p.1, p.2)

/-- The single-channel dedupe of server.js lines 273-293. -/
def dedupe (hits : List RawHit) : List Candidate :=
  (dedupeInto normalizeHit hits []).1

/-- The dual-channel dedupe of part_000 lines 763-796: the Instagram channel
is folded first from an empty seen set, then the open-web channel continues
from the same (shared) seen set. -/
def dedupeChannels (ig web : List RawHit) : List Candidate × List CandidateW :=
  let p1 := dedupeInto normalizeHit ig []
  let p2 := dedupeInto normalizeWebHit web p1.2
  (p1.1, p2.1)

/-- Fuel-indexed worker for the batching loop; the fuel only serves to make
the recursion structural, and is always instantiated with the list length. -/
def batchesGo (L : Nat) : Nat → List α → List (List α)
  | _, [] => []
  | 0, _ :: _ => []
  | Nat.succ fuel, x :: xs =>
    if L = 0 then []
    else (x :: xs).take L :: batchesGo L fuel ((x :: xs).drop L)

/-- The batching for-loop shared by classifyResults (BATCH_SIZE 40),
classifyInstagramResults (40) and extractFromWebResults (30): push
slice(i, i+L) for i = 0, L, 2L, ... -/
def batchesOf (L : Nat) (l : List α) : List (List α) :=
  batchesGo L l.length l

theorem batchesGo_fuel (L : Nat) (hL : 0 < L) (n : Nat) :
    ∀ (l : List α) (f1 f2 : Nat), l.length ≤ n → l.length ≤ f1 → l.length ≤ f2 →
      batchesGo L f1 l = batchesGo L f2 l := by
  induction n with
  | zero =>
    intro l f1 f2 hn _ _
    have hnil : l = [] := List.length_eq_zero.mp (Nat.le_zero.mp hn)
    subst hnil
    cases f1 <;> cases f2 <;> rfl
  | succ n ih =>
    intro l f1 f2 hn h1 h2
    cases l with
    | nil => cases f1 <;> cases f2 <;> rfl
    | cons x xs =>
      have hL0 : ¬ L = 0 := Nat.pos_iff_ne_zero.mp hL
      cases f1 with
      | zero => simp at h1
      | succ g1 =>
        cases f2 with
        | zero => simp at h2
        | succ g2 =>
          simp only [batchesGo, if_neg hL0]
          have hd : ((x :: xs).drop L).length ≤ n := by
            simp only [List.length_drop, List.length_cons] at *
            omega
          have hd1 : ((x :: xs).drop L).length ≤ g1 := by
            simp only [List.length_drop, List.length_cons] at *
            omega
          have hd2 : ((x :: xs).drop L).length ≤ g2 := by
            simp only [List.length_drop, List.length_cons] at *
            omega
          rw [ih _ g1 g2 hd hd1 hd2]

/-- Unfolding equation for batchesOf on a nonempty list. -/
theorem batchesOf_cons (L : Nat) (hL : 0 < L) (x : α) (xs : List α) :
    batchesOf L (x :: xs) = (x :: xs).take L :: batchesOf L ((x :: xs).drop L) := by
  have hL0 : ¬ L = 0 := Nat.pos_iff_ne_zero.mp hL
  have hdrop : ((x :: xs).drop L).length ≤ xs.length := by
    simp only [List.length_drop, List.length_cons]
    omega
  simp only [batchesOf, List.length_cons, batchesGo, if_neg hL0]
  exact congrArg _ (batchesGo_fuel L hL xs.length _ xs.length _ hdrop hdrop le_rfl)

example : batchesOf 2 [1, 2, 3, 4, 5] = [[1, 2], [3, 4], [5]] := by decide
example : dedupe [] = [] := rfl

/-! ## General facts about the dedupe fold -/

/-- The canonical URL of a raw hit (the link field inherited from
SearchItem), as a standalone projection usable under List.map. -/
def hitLink (h : RawHit) : String := h.link

theorem dedupeInto_nodup_fresh {β : Type} (norm : RawHit → β) (lk : β → String)
    (hlk : ∀ h, lk (norm h) = h.link) :
    ∀ (hits : List RawHit) (seen : List String),
      ((dedupeInto norm hits seen).1.map lk).Nodup ∧
      ∀ x ∈ (dedupeInto norm hits seen).1.map lk, x ∉ seen := by
  intro hits
  induction hits with
  | nil => intro seen; simp [dedupeInto]
  | cons h rest ih =>
    intro seen
    by_cases hmem : h.link ∈ seen
    · simpa [dedupeInto, hmem] using ih seen
    · have ih2 := ih (h.link :: seen)
      constructor
      · simp only [dedupeInto, if_neg hmem, List.map_cons, List.nodup_cons, hlk]
        refine ⟨fun hx => ?_, ih2.1⟩
        exact (ih2.2 _ hx) (List.mem_cons_self _ _)
      · intro x hx
        simp only [dedupeInto, if_neg hmem, List.map_cons, List.mem_cons, hlk] at hx
        rcases hx with hx | hx
        · subst hx; exact hmem
        · intro hxs
          exact (ih2.2 _ hx) (List.mem_cons_of_mem _ hxs)

theorem dedupeInto_links_subset {β : Type} (norm : RawHit → β) (lk : β → String)
    (hlk : ∀ h, lk (norm h) = h.link) :
    ∀ (hits : List RawHit) (seen : List String) (x : String),
      x ∈ (dedupeInto norm hits seen).1.map lk → x ∈ hits.map hitLink := by
  intro hits
  induction hits with
  | nil => intro seen x hx; simp [dedupeInto] at hx
  | cons h rest ih =>
    intro seen x hx
    by_cases hmem : h.link ∈ seen
    · simp only [dedupeInto, if_neg, if_pos hmem] at hx
      exact List.mem_cons_of_mem _ (ih seen x hx)
    · simp only [dedupeInto, if_neg hmem, List.map_cons, List.mem_cons, hlk] at hx
      rcases hx with hx | hx
      · subst hx; exact List.mem_cons_self _ _
      · exact List.mem_cons_of_mem _ (ih _ x hx)

theorem dedupeInto_find {β : Type} (norm : RawHit → β) (lk : β → String)
    (hlk : ∀ h, lk (norm h) = h.link) :
    ∀ (hits : List RawHit) (seen : List String) (url : String), url ∉ seen →
      (dedupeInto norm hits seen).1.find? (fun c => lk c == url) =
        (hits.find? (fun h => h.link == url)).map norm := by
  intro hits
  induction hits with
  | nil => intro seen url _; simp [dedupeInto]
  | cons h rest ih =>
    intro seen url hurl
    by_cases hmem : h.link ∈ seen
    · have hne : ¬ (h.link == url) = true := by
        simp only [beq_iff_eq]
        intro he
        exact hurl (he ▸ hmem)
      simp only [dedupeInto, if_pos hmem, List.find?_cons, hne]
      simpa [hne] using ih seen url hurl
    · by_cases heq : h.link = url
      · subst heq
        simp [dedupeInto, if_neg hmem, List.find?_cons, hlk]
      · have hne : ¬ (h.link == url) = true := by simpa using heq
        have hurl2 : url ∉ h.link :: seen := by
          intro hc
          rcases List.mem_cons.mp hc with hc | hc
          · exact heq hc.symm
          · exact hurl hc
        simp only [dedupeInto, if_neg hmem, List.find?_cons, hlk, hne]
        simpa [hne] using ih (h.link :: seen) url hurl2

theorem dedupeInto_seen_mem {β : Type} (norm : RawHit → β) :
    ∀ (hits : List RawHit) (seen : List String) (x : String),
      x ∈ (dedupeInto norm hits seen).2 ↔ x ∈ hits.map hitLink ∨ x ∈ seen := by
  intro hits
  induction hits with
  | nil => intro seen x; simp [dedupeInto]
  | cons h rest ih =>
    intro seen x
    by_cases hmem : h.link ∈ seen
    · have hxh : x = hitLink h → x ∈ seen := by
        intro hx
        rw [hx]
        exact hmem
      simp only [dedupeInto, if_pos hmem, List.map_cons, List.mem_cons]
      rw [ih seen x]
      tauto
    · have hxh : x = hitLink h ↔ x = h.link := Iff.rfl
      simp only [dedupeInto, if_neg hmem, List.map_cons, List.mem_cons]
      rw [ih (h.link :: seen) x]
      simp only [List.mem_cons]
      tauto

theorem dedupeInto_length_le {β : Type} (norm : RawHit → β) (lk : β → String)
    (hlk : ∀ h, lk (norm h) = h.link) (hits : List RawHit) :
    (dedupeInto norm hits []).1.length ≤ (hits.map hitLink).dedup.length := by
  have hnd : ((dedupeInto norm hits []).1.map lk).Nodup :=
    (dedupeInto_nodup_fresh norm lk hlk hits []).1
  have hsub : ((dedupeInto norm hits []).1.map lk).toFinset ⊆
      (hits.map hitLink).toFinset := by
    intro x hx
    rw [List.mem_toFinset] at *
    exact dedupeInto_links_subset norm lk hlk hits [] x hx
  calc (dedupeInto norm hits []).1.length
      = ((dedupeInto norm hits []).1.map lk).length := (List.length_map _ _).symm
    _ = ((dedupeInto norm hits []).1.map lk).toFinset.card :=
        (List.toFinset_card_of_nodup hnd).symm
    _ ≤ (hits.map hitLink).toFinset.card := Finset.card_le_card hsub
    _ = (hits.map hitLink).dedup.length := List.card_toFinset _

/-! ## Phase 1: query expansion

The prompt templates below keep the identifying skeleton of the template
literals (opening sentence, interpolation sites, closing instruction); the
intermediate instruction prose, which no claim depends on and which only
the external model reads, is elided.  What matters for the embedding is
that distinct templates are distinct strings and that the user query,
location and stringified batch are interpolated where the source
interpolates them.
-/

/-- The parse of the expansion model response, as far as the code reads it:
JSON.parse plus the subsequent accesses of location, intent and queries.
A response whose queries field is missing or not an array makes the
success path throw at parsed.queries.length and is modelled as
queries = none. -/
structure ParsedExpansion where
  location : Option String
  intent : Option String
  queries : Option (List String)
deriving DecidableEq, Repr

/-- The expansion record flowing into phase 2.  The success path returns the
parsed object (which carries no fallback field, modelled fallback = false);
the catch path returns the deterministic fallback object. -/
structure Expansion where
  location : Option String
  intent : Option String
  queries : List String
  fallback : Bool
deriving DecidableEq, Repr

/-- The v2.0 expansion prompt (server.js lines 70-99), abridged to its
skeleton. -/
def expandPrompt (userQuery : String) : String :=
  "You are a search query expansion engine for discovering fitness, sports, wellness, and active lifestyle communities on Instagram.\nUSER QUERY: \"" ++
    userQuery ++ "\"\nRESPOND WITH ONLY A JSON OBJECT"

/-- The v3.0 expansion prompt (part_000 lines 438-489), abridged to its
skeleton. -/
def expandPromptV3 (userQuery : String) : String :=
  "You are an expert search query generator. Your job is to generate the MOST COMPREHENSIVE set of Google search queries possible to discover ALL fitness, wellness, sports, and active lifestyle communities/clubs/events in a city.\nUSER QUERY: \"" ++
    userQuery ++ "\"\nRESPOND WITH ONLY A JSON OBJECT"

/-- The deterministic fallback of the v2.0 expandQuery catch block
(server.js lines 112-126). -/
def fallbackExpansion (userQuery : String) : Expansion :=
  { location := some "Unknown"
    intent := some userQuery
    queries :=
      [userQuery,
       userQuery ++ " club",
       userQuery ++ " community",
       userQuery ++ " fitness",
       userQuery ++ " event",
       userQuery ++ " academy"]
    fallback := true }

/-- The deterministic fallback of the v3.0 expandQuery catch block
(part_000 lines 502-520). -/
def fallbackExpansionV3 (userQuery : String) : Expansion :=
  { location := some "Unknown"
    intent := some userQuery
    queries :=
      [userQuery,
       userQuery ++ " club",
       userQuery ++ " community",
       userQuery ++ " fitness",
       userQuery ++ " event",
       userQuery ++ " running",
       userQuery ++ " yoga",
       userQuery ++ " sports",
       "best fitness clubs " ++ userQuery,
       "top run clubs " ++ userQuery]
    fallback := true }

/-- A JSON.parse oracle for the expansion response shape. -/
def ExpParseOracle : Type := String → Option ParsedExpansion

/-- expandQuery of server.js lines 67-128: call Gemini with the expansion
prompt, strip fences, parse; any model error, parse error or missing
queries array is caught and produces the deterministic fallback. -/
def expandQueryM (gen : GenOracle) (jp : ExpParseOracle) (userQuery : String) :
    Expansion :=
  match callGemini gen (expandPrompt userQuery) with
  | Except.error _ => fallbackExpansion userQuery
  | Except.ok raw =>
    match jp (cleanResponse raw) with
    | none => fallbackExpansion userQuery
    | some parsed =>
      match parsed.queries with
      | none => fallbackExpansion userQuery
      | some qs =>
        { location := parsed.location
          intent := parsed.intent
          queries := qs
          fallback := false }

/-- expandQuery of part_000 lines 435-522 (v3.0): identical control flow
with the v3 prompt and the larger fallback list. -/
def expandQueryV3M (gen : GenOracle) (jp : ExpParseOracle) (userQuery : String) :
    Expansion :=
  match callGemini gen (expandPromptV3 userQuery) with
  | Except.error _ => fallbackExpansionV3 userQuery
  | Except.ok raw =>
    match jp (cleanResponse raw) with
    | none => fallbackExpansionV3 userQuery
    | some parsed =>
      match parsed.queries with
      | none => fallbackExpansionV3 userQuery
      | some qs =>
        { location := parsed.location
          intent := parsed.intent
          queries := qs
          fallback := false }

/-! ## Classified entities -/

/-- One entity in the JSON array returned by a classification or extraction
call, as far as the pipeline reads it.  Every field may be absent or null
in the model output. -/
structure Entity where
  name : Option String
  handle : Option String
  category : Option String
  subcategory : Option String
  followers : Option String
  logo : Option String
  reasoning : Option String
  url : Option String
deriving DecidableEq, Repr

/-- A JSON.parse oracle for classification responses: none models a throw
of JSON.parse on the cleaned text. -/
def EntParseOracle : Type := String → Option (List Entity)

/-- The v2.0 classification prompt (server.js lines 180-218), abridged. -/
def classifyPrompt (userQuery : String) (location : Option String)
    (data : String) : String :=
  "You are the \"Omni-Search Intelligence\" classifier for fitness & wellness communities.\nUSER QUERY: \"" ++
    userQuery ++ "\"\nTARGET LOCATION: \"" ++ jsString location ++
    "\"\nINPUT DATA:\n" ++ data ++ "\nRESPOND WITH ONLY A JSON ARRAY"

/-- The v3.0 Instagram-channel classification prompt (part_000 lines
583-621), abridged.  Distinct template from the v2.0 one. -/
def classifyPromptIg (userQuery : String) (location : Option String)
    (data : String) : String :=
  "You are the \"Omni-Search Intelligence\" classifier for fitness & wellness communities. v3\nUSER QUERY: \"" ++
    userQuery ++ "\"\nTARGET LOCATION: \"" ++ jsString location ++
    "\"\nINPUT DATA:\n" ++ data ++ "\nRESPOND WITH ONLY A JSON ARRAY"

/-- The v3.0 web-extraction prompt (part_000 lines 650-684), abridged. -/
def extractPrompt (userQuery : String) (location : Option String)
    (data : String) : String :=
  "You are an Instagram handle extractor. Your job is to find ALL fitness/wellness/sports Instagram accounts mentioned in web pages.\nUSER QUERY: \"" ++
    userQuery ++ "\"\nTARGET LOCATION: \"" ++ jsString location ++
    "\"\nINPUT DATA:\n" ++ data ++ "\nRESPOND WITH ONLY A JSON ARRAY of accounts found"

/-! ## Oracles and phase 2/3 plumbing -/

/-- All external collaborators of one request, bundled: generative model,
JSON.parse for the two response shapes, JSON.stringify for the two batch
shapes, the per-page search provider call, and the three environment flags
read by the env_check block. -/
structure Oracles where
  gen : GenOracle
  parseExpansion : ExpParseOracle
  parseEntities : EntParseOracle
  stringifyCands : List Candidate → String
  stringifyWeb : List CandidateW → String
  search : String → Nat → Except String (List SearchItem)
  envGemini : Bool
  envSearchKey : Bool
  envCx : Bool

def PAGES_PER_QUERY : Nat := 2

/-- The per-page offsets 1, 11, 21, ... used by every paginated search. -/
def pageOffsets (pages : Nat) : List Nat :=
  (List.range pages).map (fun i => 1 + i * 10)

/-- One paginated provider search: every page request is independently
fault-isolated (a throw yields an empty page), every returned item is
tagged with the originating query label.  This is searchInstagram of
server.js lines 136-164 and googleSearch of part_000 lines 529-555. -/
def googleSearchM (O : Oracles) (fullQuery label : String) (pages : Nat) :
    List RawHit :=
  ((pageOffsets pages).map (fun start =>
    match O.search fullQuery start with
    | Except.error _ => []
    | Except.ok items =>
      items.map (fun it => ({ toSearchItem := it, searchQuery := label } : RawHit)))).flatten

/-- searchInstagram of server.js (v2.0): site-restricted query, 2 pages,
label passed through as-is. -/
def searchInstagramM (O : Oracles) (query label : String) : List RawHit :=
  googleSearchM O ("site:instagram.com " ++ query) label PAGES_PER_QUERY

/-- Strategy A of part_000 lines 557-559 (v3.0): site-restricted, 3 pages,
label prefixed with the IG marker. -/
def searchInstagramV3 (O : Oracles) (query label : String) : List RawHit :=
  googleSearchM O ("site:instagram.com " ++ query) ("IG: " ++ label) 3

/-- Strategy B of part_000 lines 562-564 (v3.0): open web with a discovery
term appended, 2 pages, label prefixed with the WEB marker. -/
def searchWebV3 (O : Oracles) (query label : String) : List RawHit :=
  googleSearchM O (query ++ " instagram") ("WEB: " ++ label) 2

def CLASSIFY_BATCH_SIZE : Nat := 40

def WEB_BATCH_SIZE : Nat := 30

/-- One classification batch of classifyResults (server.js lines 179-228):
build the prompt around the stringified batch, call Gemini with fallback,
strip fences and parse; any throw in the chain is caught and the batch
contributes an empty array. -/
def classifyBatchM (O : Oracles) (q : String) (loc : Option String)
    (batch : List Candidate) : List Entity :=
  match callGemini O.gen (classifyPrompt q loc (O.stringifyCands batch)) with
  | Except.error _ => []
  | Except.ok raw =>
    match O.parseEntities (cleanResponse raw) with
    | none => []
    | some v => v

/-- classifyResults of server.js lines 170-232: partition into batches of
40, classify each batch independently, flatten. -/
def classifyResultsM (O : Oracles) (cands : List Candidate) (q : String)
    (loc : Option String) : List Entity :=
  ((batchesOf CLASSIFY_BATCH_SIZE cands).map (classifyBatchM O q loc)).flatten

/-- One batch of classifyInstagramResults (part_000 lines 582-631). -/
def classifyBatchIgM (O : Oracles) (q : String) (loc : Option String)
    (batch : List Candidate) : List Entity :=
  match callGemini O.gen (classifyPromptIg q loc (O.stringifyCands batch)) with
  | Except.error _ => []
  | Except.ok raw =>
    match O.parseEntities (cleanResponse raw) with
    | none => []
    | some v => v

/-- classifyInstagramResults of part_000 lines 573-635: batches of 40. -/
def classifyIgResultsM (O : Oracles) (cands : List Candidate) (q : String)
    (loc : Option String) : List Entity :=
  ((batchesOf CLASSIFY_BATCH_SIZE cands).map (classifyBatchIgM O q loc)).flatten

/-- One batch of extractFromWebResults (part_000 lines 649-694). -/
def extractBatchM (O : Oracles) (q : String) (loc : Option String)
    (batch : List CandidateW) : List Entity :=
  match callGemini O.gen (extractPrompt q loc (O.stringifyWeb batch)) with
  | Except.error _ => []
  | Except.ok raw =>
    match O.parseEntities (cleanResponse raw) with
    | none => []
    | some v => v

/-- extractFromWebResults of part_000 lines 638-698: early return on an
empty candidate list, otherwise batches of 30. -/
def extractWebResultsM (O : Oracles) (cands : List CandidateW) (q : String)
    (loc : Option String) : List Entity :=
  match cands with
  | [] => []
  | _ =>
    ((batchesOf WEB_BATCH_SIZE cands).map (extractBatchM O q loc)).flatten

/-! ## The v3.0 result merger (part_000 lines 840-855)

mergedResults starts as a copy of igClassified; seenHandles starts as the
set of lowered truthy handles of igClassified.  For each webExtracted item:
a truthy handle is appended iff unseen (and marked); a falsy handle with a
truthy name is appended iff no already-merged item has the same lowered
name, where the some-scan stops at the first match and throws a TypeError
when it reads name.toLowerCase of an item whose name is null or missing.
The throw is modelled in Except; the endpoint-level catch maps it to a
500 response.
-/

deriving instance DecidableEq for Except

/-- The JS expression mergedResults.some of r.name.toLowerCase() === nameKey:
scans in order, short-circuits on the first match, throws (error) when it
dereferences a missing name. -/
def someNameLower (key : String) : List Entity → Except Unit Bool
  | [] => Except.ok false
  | r :: rest =>
    match r.name with
    | none => Except.error ()
    | some n =>
      if lowerStr n == key then Except.ok true else someNameLower key rest

/-- The else-if branch of the merge loop for a falsy handle: append iff the
name is truthy and no merged item collides on the lowered name. -/
def mergeStepName (merged : List Entity) (seen : List String) (w : Entity) :
    Except Unit (List Entity × List String) :=
  match w.name with
  | some n =>
    if n = "" then Except.ok (merged, seen)
    else
      match someNameLower (lowerStr n) merged with
      | Except.error e => Except.error e
      | Except.ok true => Except.ok (merged, seen)
      | Except.ok false => Except.ok (merged ++ [w], seen)
  | none => Except.ok (merged, seen)

/-- The for-of merge loop body over webExtracted. -/
def mergeLoop : List Entity → List String → List Entity → Except Unit (List Entity)
  | merged, _, [] => Except.ok merged
  | merged, seen, w :: rest =>
    match lowOpt w.handle with
    | some h =>
      if h = "" then
        match mergeStepName merged seen w with
        | Except.error e => Except.error e
        | Except.ok p => mergeLoop p.1 p.2 rest
      else if h ∈ seen then mergeLoop merged seen rest
      else mergeLoop (merged ++ [w]) (h :: seen) rest
    | none =>
      match mergeStepName merged seen w with
      | Except.error e => Except.error e
      | Except.ok p => mergeLoop p.1 p.2 rest

/-- new Set(igClassified.map of handle?.toLowerCase(), filter(Boolean)):
the lowered handles of the primary list with null, undefined and the empty
string filtered out. -/
def initialSeen (primary : List Entity) : List String :=
  ((primary.map (fun r => lowOpt r.handle)).filterMap id).filter (fun s => !(s == ""))

/-- The whole merge step: primary list verbatim, then the loop over the
secondary list. -/
def mergeResults (primary secondary : List Entity) : Except Unit (List Entity) :=
  mergeLoop primary (initialSeen primary) secondary

example :
    mergeResults
      [{ name := some "A", handle := some "a", category := none, subcategory := none,
         followers := none, logo := none, reasoning := none, url := none }]
      [{ name := some "C", handle := some "c", category := none, subcategory := none,
         followers := none, logo := none, reasoning := none, url := none }] =
    Except.ok
      [{ name := some "A", handle := some "a", category := none, subcategory := none,
         followers := none, logo := none, reasoning := none, url := none },
       { name := some "C", handle := some "c", category := none, subcategory := none,
         followers := none, logo := none, reasoning := none, url := none }] := by
  decide

/-! ## Logo re-attachment and the response shape -/

/-- A final result entry: the classified entity spread with logo re-resolved
and sourceQuery attached. -/
structure FinalEntity where
  name : Option String
  handle : Option String
  category : Option String
  subcategory : Option String
  followers : Option String
  reasoning : Option String
  url : Option String
  logo : Option String
  sourceQuery : String
deriving DecidableEq, Repr

/-- uniqueItems.find of (u.link === r.url || u.link.includes(handle minus
at-sign)); a missing handle coerces to the literal string undefined inside
includes, exactly as in JS. -/
def findOriginal (uniq : List Candidate) (r : Entity) : Option Candidate :=
  uniq.find? (fun u =>
    (r.url == some u.link) ||
      listIsInfixB
        (match r.handle with
         | none => "undefined".data
         | some h => removeFirstAt h.data)
        u.link.data)

/-- The v2.0 re-attach map (server.js lines 325-334). -/
def reattachV2 (uniq : List Candidate) (r : Entity) : FinalEntity :=
  let original := findOriginal uniq r
  { name := r.name
    handle := r.handle
    category := r.category
    subcategory := r.subcategory
    followers := r.followers
    reasoning := r.reasoning
    url := r.url
    logo := jsOrO r.logo (match original with | some u => u.logoUrl | none => none)
    sourceQuery := jsOrS (original.map (fun u => u.sourceQuery)) "Unknown" }

/-- The v3.0 re-attach map (part_000 lines 858-867); classifier entities
carry no sourceQuery field of their own, so the JS or-chain reduces to the
original candidate label defaulted to Discovery. -/
def reattachV3 (uniq : List Candidate) (r : Entity) : FinalEntity :=
  let original := findOriginal uniq r
  { name := r.name
    handle := r.handle
    category := r.category
    subcategory := r.subcategory
    followers := r.followers
    reasoning := r.reasoning
    url := r.url
    logo := jsOrO r.logo (match original with | some u => u.logoUrl | none => none)
    sourceQuery := jsOrS (original.map (fun u => u.sourceQuery)) "Discovery" }

/-- The env_check object of the empty-candidates debug block and the health
endpoint: presence booleans of the three required configuration values. -/
structure EnvCheck where
  gemini : Bool
  searchKey : Bool
  cx : Bool
deriving DecidableEq, Repr

structure DebugInfo where
  message : Option String
  errors : List String
  env_check : Option EnvCheck
deriving DecidableEq, Repr

structure Meta where
  query : String
  candidates_scanned : Nat
  ig_candidates : Option Nat
  web_candidates : Option Nat
  queries_used : Nat
  location : Option String
  intent : Option String
  expanded_queries : List String
deriving DecidableEq, Repr

structure OkResponse where
  meta : Meta
  results : List FinalEntity
  debug : Option DebugInfo
deriving DecidableEq, Repr

/-- The three response shapes of the omni-search endpoint: the 400 on a
falsy query, the 500 of the outer catch (carrying the thrown message), and
a 200 JSON body. -/
inductive Response where
  | badRequest : Response
  | serverError : Response
  | ok : OkResponse → Response
deriving DecidableEq, Repr

def Response.isSuccess : Response → Bool
  | Response.ok _ => true
  | _ => false

def Response.resultsList : Response → List FinalEntity
  | Response.ok r => r.results
  | _ => []

def Response.debugInfo : Response → Option DebugInfo
  | Response.ok r => r.debug
  | _ => none

def emptyMessage : String :=
  "Google Custom Search returned 0 results across all queries."

def emptyHint : String :=
  "All queries returned empty — check API key, CX, or quota."

/-! ## The v2.0 endpoint (server.js lines 237-357)

The request-level errors array is only pushed to by the catch handlers
around expandQuery and around each searchInstagram call.  Both callees are
total in this embedding (expandQuery absorbs its own failures, and every
page failure inside searchInstagram is caught per page and carries a
message string), so the array stays empty; it is still threaded through
the response construction exactly as in the source.
-/

def v2Expansion (O : Oracles) (query : String) : Expansion :=
  expandQueryM O.gen O.parseExpansion query

/-- The flattened raw hit list of phase 2: one searchInstagram call per
expanded query, labelled Q1:, Q2:, ... -/
def v2AllItems (O : Oracles) (query : String) : List RawHit :=
  ((v2Expansion O query).queries.enum.map (fun iq =>
    searchInstagramM O iq.2 ("Q" ++ toString (iq.1 + 1) ++ ": " ++ iq.2))).flatten

/-- The deduplicated candidate list of one v2.0 request. -/
def omniCandidates (O : Oracles) (query : String) : List Candidate :=
  dedupe (v2AllItems O query)

def v2EmptyDebug (O : Oracles) (errors : List String) : DebugInfo :=
  { message := some emptyMessage
    errors := if errors.length > 0 then errors else [emptyHint]
    env_check := some { gemini := O.envGemini, searchKey := O.envSearchKey, cx := O.envCx } }

def v2Meta (O : Oracles) (query : String) (scanned : Nat) : Meta :=
  { query := query
    candidates_scanned := scanned
    ig_candidates := none
    web_candidates := none
    queries_used := (v2Expansion O query).queries.length
    location := (v2Expansion O query).location
    intent := (v2Expansion O query).intent
    expanded_queries := (v2Expansion O query).queries }

/-- POST /api/omni-search, v2.0. -/
def omniSearch (O : Oracles) (query : String) : Response :=
  if query = "" then Response.badRequest
  else
    let errors : List String := []
    let expansion := v2Expansion O query
    let uniqueItems := omniCandidates O query
    if uniqueItems = [] then
      Response.ok
        { meta := v2Meta O query 0
          results := []
          debug := some (v2EmptyDebug O errors) }
    else
      let validResults :=
        (classifyResultsM O uniqueItems query expansion.location).map
          (reattachV2 uniqueItems)
      Response.ok
        { meta := v2Meta O query uniqueItems.length
          results := validResults
          debug :=
            if errors.length > 0 then
              some { message := none, errors := errors, env_check := none }
            else none }

/-! ## The v3.0 endpoint (part_000 lines 703-892) -/

def v3Expansion (O : Oracles) (query : String) : Expansion :=
  expandQueryV3M O.gen O.parseExpansion query

/-- All Instagram-channel hits: searchInstagram(q, q) per expanded query. -/
def v3IgItems (O : Oracles) (query : String) : List RawHit :=
  ((v3Expansion O query).queries.map (fun q => searchInstagramV3 O q q)).flatten

/-- All open-web-channel hits: searchWeb(q, q) per expanded query. -/
def v3WebItems (O : Oracles) (query : String) : List RawHit :=
  ((v3Expansion O query).queries.map (fun q => searchWebV3 O q q)).flatten

/-- The two deduplicated candidate lists of one v3.0 request, sharing one
seen-URL set. -/
def v3Unique (O : Oracles) (query : String) : List Candidate × List CandidateW :=
  dedupeChannels (v3IgItems O query) (v3WebItems O query)

def v3IgClassified (O : Oracles) (query : String) : List Entity :=
  classifyIgResultsM O (v3Unique O query).1 query (v3Expansion O query).location

def v3WebExtracted (O : Oracles) (query : String) : List Entity :=
  extractWebResultsM O (v3Unique O query).2 query (v3Expansion O query).location

/-- The merge of the two classified streams of one v3.0 request. -/
def v3Merge (O : Oracles) (query : String) : Except Unit (List Entity) :=
  mergeResults (v3IgClassified O query) (v3WebExtracted O query)

def v3Meta (O : Oracles) (query : String) (scanned : Nat)
    (igc webc : Option Nat) : Meta :=
  { query := query
    candidates_scanned := scanned
    ig_candidates := igc
    web_candidates := webc
    queries_used := (v3Expansion O query).queries.length
    location := (v3Expansion O query).location
    intent := (v3Expansion O query).intent
    expanded_queries := (v3Expansion O query).queries }

/-- POST /api/omni-search, v3.0: dual-channel search, shared-seen-set
dedupe, two-stage classification, merge (whose TypeError throw lands in
the outer catch as a 500), logo re-attach. -/
def omniSearchV3 (O : Oracles) (query : String) : Response :=
  if query = "" then Response.badRequest
  else
    let errors : List String := []
    let uniq := v3Unique O query
    if uniq.1.length + uniq.2.length = 0 then
      Response.ok
        { meta := v3Meta O query 0 none none
          results := []
          debug := some (v2EmptyDebug O errors) }
    else
      match v3Merge O query with
      | Except.error _ => Response.serverError
      | Except.ok mergedResults =>
        Response.ok
          { meta := v3Meta O query (uniq.1.length + uniq.2.length)
              (some uniq.1.length) (some uniq.2.length)
            results := mergedResults.map (reattachV3 uniq.1)
            debug :=
              if errors.length > 0 then
                some { message := none, errors := errors, env_check := none }
              else none }

/-! ## Claim C1: first-seen-wins deduplication -/

/-- C1: for any list of raw hits, the single-pass dedupe keeps exactly the
first hit bearing each URL and drops every later hit with the same URL,
so the candidate count is at most the number of distinct URLs in the
input; for every URL the retained candidate is the normalization of the
first hit bearing it (and of nothing else), where the preview image falls
back from the og:image metatag to the cse_image field and a missing
description defaults to the empty string. -/
theorem dedupe_first_seen_wins (hits : List RawHit) :
    (dedupe hits).length ≤ ((hits.map hitLink).dedup).length ∧
    (∀ url : String,
      (dedupe hits).find? (fun c => c.link == url) =
        (hits.find? (fun h => h.link == url)).map normalizeHit) ∧
    ((dedupe hits).map Candidate.link).Nodup ∧
    (∀ h : RawHit, h.og_description = none → (normalizeHit h).ogDescription = "") ∧
    (∀ h : RawHit, h.og_image = none ∨ h.og_image = some "" →
      (normalizeHit h).logoUrl = jsFalsyOpt h.cse_image_src) ∧
    (∀ (h : RawHit) (s : String), h.og_image = some s → s ≠ "" →
      (normalizeHit h).logoUrl = some s) := by
  have hlk : ∀ h : RawHit, Candidate.link (normalizeHit h) = hitLink h :=
    fun h => rfl
  refine ⟨?_, ?_, ?_, ?_, ?_, ?_⟩
  · exact dedupeInto_length_le normalizeHit Candidate.link hlk hits
  · intro url
    exact dedupeInto_find normalizeHit Candidate.link hlk hits [] url
      (List.not_mem_nil url)
  · exact (dedupeInto_nodup_fresh normalizeHit Candidate.link hlk hits []).1
  · intro h hd
    simp [normalizeHit, jsOrS, hd]
  · intro h hd
    rcases hd with hd | hd <;> simp [normalizeHit, jsOrO, hd]
  · intro h s hs hne
    simp [normalizeHit, jsOrO, hs, hne]

def c1HitA : RawHit :=
  { title := "Run Club A"
    link := "https://instagram.com/a"
    snippet := "snA"
    og_description := none
    og_image := none
    cse_image_src := some "https://img/a.jpg"
    searchQuery := "Q1: run club" }

def c1HitADup : RawHit :=
  { title := "Run Club A again"
    link := "https://instagram.com/a"
    snippet := "snA2"
    og_description := some "descA2"
    og_image := some "https://img/a2.jpg"
    cse_image_src := none
    searchQuery := "Q2: fitness club" }

def c1HitB : RawHit :=
  { title := "Yoga B"
    link := "https://instagram.com/b"
    snippet := "snB"
    og_description := some "descB"
    og_image := some "https://img/b.jpg"
    cse_image_src := none
    searchQuery := "Q1: run club" }

theorem dedupe_first_seen_wins_witness :
    ((dedupe [c1HitA, c1HitADup, c1HitB]).find? (fun c => c.link == "https://instagram.com/a") =
      ([c1HitA, c1HitADup, c1HitB].find? (fun h => h.link == "https://instagram.com/a")).map
        normalizeHit) ∧
    (normalizeHit c1HitA).ogDescription = "" ∧
    (normalizeHit c1HitA).logoUrl = jsFalsyOpt c1HitA.cse_image_src ∧
    (normalizeHit c1HitB).logoUrl = some "https://img/b.jpg" :=
  ⟨(dedupe_first_seen_wins [c1HitA, c1HitADup, c1HitB]).2.1 "https://instagram.com/a",
   (dedupe_first_seen_wins []).2.2.2.1 c1HitA rfl,
   (dedupe_first_seen_wins []).2.2.2.2.1 c1HitA (Or.inl rfl),
   (dedupe_first_seen_wins []).2.2.2.2.2 c1HitB "https://img/b.jpg" rfl (by decide)⟩

/-! ## Batch partition facts -/

theorem batchesOf_nil (L : Nat) : batchesOf L ([] : List α) = [] := rfl

theorem batchesOf_length_aux (L : Nat) (hL : 0 < L) :
    ∀ (n : Nat) (l : List α), l.length ≤ n →
      (batchesOf L l).length = (l.length + L - 1) / L := by
  intro n
  induction n with
  | zero =>
    intro l hl
    have hnil : l = [] := List.length_eq_zero.mp (Nat.le_zero.mp hl)
    subst hnil
    simp [batchesOf_nil, Nat.div_eq_of_lt (show L - 1 < L by omega)]
  | succ n ih =>
    intro l hl
    cases l with
    | nil => simp [batchesOf_nil, Nat.div_eq_of_lt (show L - 1 < L by omega)]
    | cons x xs =>
      have hd : ((x :: xs).drop L).length ≤ n := by
        simp only [List.length_drop, List.length_cons] at *
        omega
      rw [batchesOf_cons L hL, List.length_cons, ih _ hd]
      simp only [List.length_drop, List.length_cons]
      have h1 : xs.length + 1 + L - 1 = (xs.length + 1 - 1) + L := by omega
      rw [h1, Nat.add_div_right _ hL]
      by_cases hm : L ≤ xs.length + 1
      · have h2 : xs.length + 1 - L + L - 1 = xs.length + 1 - 1 := by omega
        rw [h2]
      · have h2 : xs.length + 1 - L = 0 := by omega
        rw [h2, Nat.zero_add,
          Nat.div_eq_of_lt (show L - 1 < L by omega),
          Nat.div_eq_of_lt (show xs.length + 1 - 1 < L by omega)]

/-- The batch count is the ceiling of the candidate count over the batch
limit. -/
theorem batchesOf_length (L : Nat) (hL : 0 < L) (l : List α) :
    (batchesOf L l).length = (l.length + L - 1) / L :=
  batchesOf_length_aux L hL l.length l le_rfl

theorem batchesOf_flatten_aux (L : Nat) (hL : 0 < L) :
    ∀ (n : Nat) (l : List α), l.length ≤ n → (batchesOf L l).flatten = l := by
  intro n
  induction n with
  | zero =>
    intro l hl
    have hnil : l = [] := List.length_eq_zero.mp (Nat.le_zero.mp hl)
    subst hnil
    rfl
  | succ n ih =>
    intro l hl
    cases l with
    | nil => rfl
    | cons x xs =>
      have hd : ((x :: xs).drop L).length ≤ n := by
        simp only [List.length_drop, List.length_cons] at *
        omega
      rw [batchesOf_cons L hL, List.flatten_cons, ih _ hd,
        List.take_append_drop]

/-- The batches are contiguous slices: concatenating them restores the
candidate list. -/
theorem batchesOf_flatten (L : Nat) (hL : 0 < L) (l : List α) :
    (batchesOf L l).flatten = l :=
  batchesOf_flatten_aux L hL l.length l le_rfl

theorem batchesOf_sizes_aux (L : Nat) (hL : 0 < L) :
    ∀ (n : Nat) (l : List α), l.length ≤ n →
      ∀ b ∈ batchesOf L l, b ≠ [] ∧ b.length ≤ L := by
  intro n
  induction n with
  | zero =>
    intro l hl b hb
    have hnil : l = [] := List.length_eq_zero.mp (Nat.le_zero.mp hl)
    subst hnil
    simp [batchesOf_nil] at hb
  | succ n ih =>
    intro l hl b hb
    cases l with
    | nil => simp [batchesOf_nil] at hb
    | cons x xs =>
      have hd : ((x :: xs).drop L).length ≤ n := by
        simp only [List.length_drop, List.length_cons] at *
        omega
      rw [batchesOf_cons L hL] at hb
      rcases List.mem_cons.mp hb with hb | hb
      · subst hb
        constructor
        · simp only [ne_eq, List.take_eq_nil_iff]
          push_neg
          exact ⟨by omega, by simp⟩
        · simp only [List.length_take, List.length_cons]
          omega
      · exact ih _ hd b hb

/-- Every batch is nonempty and no larger than the batch limit. -/
theorem batchesOf_sizes (L : Nat) (hL : 0 < L) (l : List α) :
    ∀ b ∈ batchesOf L l, b ≠ [] ∧ b.length ≤ L :=
  batchesOf_sizes_aux L hL l.length l le_rfl

/-! ## Claim C5: fixed-size contiguous batch partition -/

/-- C5: every classification stage partitions its N candidates into
contiguous slices of its configured batch limit L (40 for both
direct-profile classifiers, 30 for the web-extraction stage), each batch
nonempty and of size at most L, and issues exactly ceil(N/L)
classification requests (one model request chain per batch); each batch is
classified by a function of that batch alone and the results are
concatenated in batch order. -/
theorem classifier_batch_partition (O : Oracles) (q : String)
    (loc : Option String) (cands : List Candidate) (candsW : List CandidateW) :
    (batchesOf CLASSIFY_BATCH_SIZE cands).length =
      (cands.length + CLASSIFY_BATCH_SIZE - 1) / CLASSIFY_BATCH_SIZE ∧
    (batchesOf WEB_BATCH_SIZE candsW).length =
      (candsW.length + WEB_BATCH_SIZE - 1) / WEB_BATCH_SIZE ∧
    (batchesOf CLASSIFY_BATCH_SIZE cands).flatten = cands ∧
    (batchesOf WEB_BATCH_SIZE candsW).flatten = candsW ∧
    (∀ b ∈ batchesOf CLASSIFY_BATCH_SIZE cands, b ≠ [] ∧ b.length ≤ CLASSIFY_BATCH_SIZE) ∧
    (∀ b ∈ batchesOf WEB_BATCH_SIZE candsW, b ≠ [] ∧ b.length ≤ WEB_BATCH_SIZE) ∧
    classifyResultsM O cands q loc =
      ((batchesOf CLASSIFY_BATCH_SIZE cands).map (classifyBatchM O q loc)).flatten ∧
    classifyIgResultsM O cands q loc =
      ((batchesOf CLASSIFY_BATCH_SIZE cands).map (classifyBatchIgM O q loc)).flatten ∧
    extractWebResultsM O candsW q loc =
      ((batchesOf WEB_BATCH_SIZE candsW).map (extractBatchM O q loc)).flatten := by
  have h40 : 0 < CLASSIFY_BATCH_SIZE := by decide
  have h30 : 0 < WEB_BATCH_SIZE := by decide
  refine ⟨batchesOf_length _ h40 cands, batchesOf_length _ h30 candsW,
    batchesOf_flatten _ h40 cands, batchesOf_flatten _ h30 candsW,
    batchesOf_sizes _ h40 cands, batchesOf_sizes _ h30 candsW,
    rfl, rfl, ?_⟩
  cases candsW with
  | nil => rfl
  | cons c cs => rfl

def dummyOracles : Oracles :=
  { gen := fun _ _ => Except.error "down"
    parseExpansion := fun _ => none
    parseEntities := fun _ => none
    stringifyCands := fun _ => "[]"
    stringifyWeb := fun _ => "[]"
    search := fun _ _ => Except.error "down"
    envGemini := false
    envSearchKey := false
    envCx := false }

def c5Cand : Candidate :=
  { title := "t", link := "https://instagram.com/x", snippet := "s",
    ogDescription := "", logoUrl := none, sourceQuery := "Q1: q" }

theorem classifier_batch_partition_witness :
    (batchesOf CLASSIFY_BATCH_SIZE [c5Cand, c5Cand, c5Cand]).length =
      ((3 : Nat) + CLASSIFY_BATCH_SIZE - 1) / CLASSIFY_BATCH_SIZE ∧
    ([c5Cand, c5Cand, c5Cand] ≠ [] ∧
      ([c5Cand, c5Cand, c5Cand] : List Candidate).length ≤ CLASSIFY_BATCH_SIZE) :=
  ⟨(classifier_batch_partition dummyOracles "q" none [c5Cand, c5Cand, c5Cand] []).1,
   (classifier_batch_partition dummyOracles "q" none [c5Cand, c5Cand, c5Cand] []).2.2.2.2.1
     [c5Cand, c5Cand, c5Cand] (by decide)⟩

/-! ## Claim C3: one model fallback per classification batch -/

theorem sum_map_ones {β : Type} (l : List β) (f : β → Nat)
    (hf : ∀ b ∈ l, f b = 1) : (l.map f).sum = l.length := by
  induction l with
  | nil => rfl
  | cons x xs ih =>
    simp only [List.map_cons, List.sum_cons, List.length_cons,
      hf x (List.mem_cons_self x xs)]
    rw [ih (fun b hb => hf b (List.mem_cons_of_mem x hb))]
    omega

/-- C3: for every classification batch, a throw of the primary model call
leads to exactly one fallback attempt with the second model (the attempted
model sequence is primary-then-fallback, with the fallback appearing
exactly once) and the attempt count is per batch, not per candidate (when
the primary always throws, the total number of fallback attempts equals
the number of batches, independent of batch contents); if both models
throw, or the response fails JSON parsing after fence stripping, the batch
contributes an empty result list; and the endpoint never turns this into a
request-level error. -/
theorem classification_fallback_per_batch :
    (∀ (gen : GenOracle) (prompt e1 : String),
      gen PRIMARY_MODEL prompt = Except.error e1 →
      callGeminiTrace gen prompt = [PRIMARY_MODEL, FALLBACK_MODEL] ∧
      (callGeminiTrace gen prompt).count FALLBACK_MODEL = 1) ∧
    (∀ (gen : GenOracle) (prompt raw : String),
      gen PRIMARY_MODEL prompt = Except.ok raw →
      callGeminiTrace gen prompt = [PRIMARY_MODEL]) ∧
    (∀ (O : Oracles) (q : String) (loc : Option String)
        (batch : List Candidate) (e1 e2 : String),
      O.gen PRIMARY_MODEL (classifyPrompt q loc (O.stringifyCands batch)) =
        Except.error e1 →
      O.gen FALLBACK_MODEL (classifyPrompt q loc (O.stringifyCands batch)) =
        Except.error e2 →
      classifyBatchM O q loc batch = []) ∧
    (∀ (O : Oracles) (q : String) (loc : Option String)
        (batch : List Candidate) (raw : String),
      callGemini O.gen (classifyPrompt q loc (O.stringifyCands batch)) =
        Except.ok raw →
      O.parseEntities (cleanResponse raw) = none →
      classifyBatchM O q loc batch = []) ∧
    (∀ (O : Oracles) (q : String) (loc : Option String) (cands : List Candidate),
      (∀ p : String, ∃ e : String, O.gen PRIMARY_MODEL p = Except.error e) →
      ((batchesOf CLASSIFY_BATCH_SIZE cands).map (fun b =>
        (callGeminiTrace O.gen
          (classifyPrompt q loc (O.stringifyCands b))).count FALLBACK_MODEL)).sum =
        (batchesOf CLASSIFY_BATCH_SIZE cands).length) ∧
    (∀ (O : Oracles) (query : String), omniSearch O query ≠ Response.serverError) := by
  refine ⟨?_, ?_, ?_, ?_, ?_, ?_⟩
  · intro gen prompt e1 h
    constructor
    · simp [callGeminiTrace, h]
    · simp only [callGeminiTrace, h]
      decide
  · intro gen prompt raw h
    simp [callGeminiTrace, h]
  · intro O q loc batch e1 e2 h1 h2
    simp [classifyBatchM, callGemini, h1, h2]
  · intro O q loc batch raw hok hparse
    simp [classifyBatchM, hok, hparse]
  · intro O q loc cands hp
    apply sum_map_ones
    intro b _
    obtain ⟨e, he⟩ := hp (classifyPrompt q loc (O.stringifyCands b))
    simp only [callGeminiTrace, he]
    decide
  · intro O query
    unfold omniSearch
    by_cases hq : query = ""
    · simp [hq]
    · simp only [if_neg hq]
      by_cases hc : omniCandidates O query = []
      · simp [hc]
      · simp [hc]

theorem classification_fallback_per_batch_witness :
    (callGeminiTrace dummyOracles.gen "p" = [PRIMARY_MODEL, FALLBACK_MODEL] ∧
      (callGeminiTrace dummyOracles.gen "p").count FALLBACK_MODEL = 1) ∧
    classifyBatchM dummyOracles "q" none [c5Cand] = [] ∧
    omniSearch dummyOracles "run clubs in Vizag" ≠ Response.serverError :=
  ⟨classification_fallback_per_batch.1 dummyOracles.gen "p" "down" rfl,
   classification_fallback_per_batch.2.2.1 dummyOracles "q" none [c5Cand]
     "down" "down" rfl rfl,
   classification_fallback_per_batch.2.2.2.2.2 dummyOracles "run clubs in Vizag"⟩

/-! ## Claim C4: query-expansion failure fallback -/

/-- C4: for every input query, when expansion fails (the model call throws
past both tiers, the cleaned response fails parsing, or the parsed object
has no queries array) expandQuery absorbs the failure and returns the
deterministic fallback: the original query plus the fixed suffix variants,
location the sentinel Unknown, intent the raw query, the fallback marker
set, and a nonempty phrase list containing the original query.  Both the
v2.0 and the v3.0 variants are covered, each with its own fixed suffix
list. -/
theorem expand_query_fallback :
    (∀ (gen : GenOracle) (jp : ExpParseOracle) (q e : String),
      callGemini gen (expandPrompt q) = Except.error e →
      expandQueryM gen jp q = fallbackExpansion q) ∧
    (∀ (gen : GenOracle) (jp : ExpParseOracle) (q raw : String),
      callGemini gen (expandPrompt q) = Except.ok raw →
      jp (cleanResponse raw) = none →
      expandQueryM gen jp q = fallbackExpansion q) ∧
    (∀ (gen : GenOracle) (jp : ExpParseOracle) (q raw : String)
        (parsed : ParsedExpansion),
      callGemini gen (expandPrompt q) = Except.ok raw →
      jp (cleanResponse raw) = some parsed →
      parsed.queries = none →
      expandQueryM gen jp q = fallbackExpansion q) ∧
    (∀ q : String,
      (fallbackExpansion q).location = some "Unknown" ∧
      (fallbackExpansion q).intent = some q ∧
      (fallbackExpansion q).fallback = true ∧
      (fallbackExpansion q).queries ≠ [] ∧
      q ∈ (fallbackExpansion q).queries ∧
      (fallbackExpansion q).queries =
        [q, q ++ " club", q ++ " community", q ++ " fitness",
         q ++ " event", q ++ " academy"]) ∧
    (∀ (gen : GenOracle) (jp : ExpParseOracle) (q e : String),
      callGemini gen (expandPromptV3 q) = Except.error e →
      expandQueryV3M gen jp q = fallbackExpansionV3 q) ∧
    (∀ (gen : GenOracle) (jp : ExpParseOracle) (q raw : String),
      callGemini gen (expandPromptV3 q) = Except.ok raw →
      jp (cleanResponse raw) = none →
      expandQueryV3M gen jp q = fallbackExpansionV3 q) ∧
    (∀ (gen : GenOracle) (jp : ExpParseOracle) (q raw : String)
        (parsed : ParsedExpansion),
      callGemini gen (expandPromptV3 q) = Except.ok raw →
      jp (cleanResponse raw) = some parsed →
      parsed.queries = none →
      expandQueryV3M gen jp q = fallbackExpansionV3 q) ∧
    (∀ q : String,
      (fallbackExpansionV3 q).location = some "Unknown" ∧
      (fallbackExpansionV3 q).intent = some q ∧
      (fallbackExpansionV3 q).fallback = true ∧
      (fallbackExpansionV3 q).queries ≠ [] ∧
      q ∈ (fallbackExpansionV3 q).queries) := by
  refine ⟨?_, ?_, ?_, ?_, ?_, ?_, ?_, ?_⟩
  · intro gen jp q e h
    simp [expandQueryM, h]
  · intro gen jp q raw hok hparse
    simp [expandQueryM, hok, hparse]
  · intro gen jp q raw parsed hok hparse hq
    simp [expandQueryM, hok, hparse, hq]
  · intro q
    refine ⟨rfl, rfl, rfl, by simp [fallbackExpansion], ?_, rfl⟩
    simp [fallbackExpansion]
  · intro gen jp q e h
    simp [expandQueryV3M, h]
  · intro gen jp q raw hok hparse
    simp [expandQueryV3M, hok, hparse]
  · intro gen jp q raw parsed hok hparse hq
    simp [expandQueryV3M, hok, hparse, hq]
  · intro q
    refine ⟨rfl, rfl, rfl, by simp [fallbackExpansionV3], ?_⟩
    simp [fallbackExpansionV3]

theorem expand_query_fallback_witness :
    expandQueryM dummyOracles.gen dummyOracles.parseExpansion "run clubs in Vizag" =
      fallbackExpansion "run clubs in Vizag" ∧
    (fallbackExpansion "run clubs in Vizag").queries ≠ [] ∧
    expandQueryV3M dummyOracles.gen dummyOracles.parseExpansion "run clubs in Vizag" =
      fallbackExpansionV3 "run clubs in Vizag" :=
  ⟨expand_query_fallback.1 dummyOracles.gen dummyOracles.parseExpansion
      "run clubs in Vizag" "Both models failed. Primary: down | Fallback: down" rfl,
   (expand_query_fallback.2.2.2.1 "run clubs in Vizag").2.2.2.1,
   expand_query_fallback.2.2.2.2.1 dummyOracles.gen dummyOracles.parseExpansion
      "run clubs in Vizag" "Both models failed. Primary: down | Fallback: down" rfl⟩

/-! ## Claim C8: dual-channel dedup against one shared seen set -/

/-- C8: the two collection channels of the v3.0 pipeline are deduplicated
against a single shared seen-URL set: across both output lists every URL
is retained exactly once; a URL occurring in the Instagram channel never
reappears as a web candidate (not reprocessed by the other channel); the
candidate retained for a URL present in the Instagram channel is the
normalization of the first Instagram hit bearing it (the channel folded
first, hence the first arrival in fold order); and a URL absent from the
Instagram channel is retained as the normalization of the first web hit
bearing it. -/
theorem dual_channel_shared_dedupe (ig web : List RawHit) :
    ((((dedupeChannels ig web).1.map Candidate.link) ++
      ((dedupeChannels ig web).2.map CandidateW.link)).Nodup) ∧
    (∀ url : String, url ∈ ig.map hitLink →
      url ∉ (dedupeChannels ig web).2.map CandidateW.link) ∧
    (∀ url : String,
      (dedupeChannels ig web).1.find? (fun c => c.link == url) =
        (ig.find? (fun h => h.link == url)).map normalizeHit) ∧
    (∀ url : String, url ∉ ig.map hitLink →
      (dedupeChannels ig web).2.find? (fun c => c.link == url) =
        (web.find? (fun h => h.link == url)).map normalizeWebHit) := by
  have hlkC : ∀ h : RawHit, Candidate.link (normalizeHit h) = hitLink h :=
    fun h => rfl
  have hlkW : ∀ h : RawHit, CandidateW.link (normalizeWebHit h) = hitLink h :=
    fun h => rfl
  have hch1 : (dedupeChannels ig web).1 = (dedupeInto normalizeHit ig []).1 := rfl
  have hch2 : (dedupeChannels ig web).2 =
      (dedupeInto normalizeWebHit web (dedupeInto normalizeHit ig []).2).1 := rfl
  have hweb2seen : ∀ x ∈ (dedupeChannels ig web).2.map CandidateW.link,
      x ∉ (dedupeInto normalizeHit ig []).2 := by
    intro x hx
    rw [hch2] at hx
    exact (dedupeInto_nodup_fresh normalizeWebHit CandidateW.link hlkW web
      (dedupeInto normalizeHit ig []).2).2 x hx
  have higseen : ∀ x : String, x ∈ ig.map hitLink →
      x ∈ (dedupeInto normalizeHit ig []).2 := by
    intro x hx
    exact (dedupeInto_seen_mem normalizeHit ig [] x).mpr (Or.inl hx)
  refine ⟨?_, ?_, ?_, ?_⟩
  · rw [List.nodup_append]
    refine ⟨?_, ?_, ?_⟩
    · rw [hch1]
      exact (dedupeInto_nodup_fresh normalizeHit Candidate.link hlkC ig []).1
    · rw [hch2]
      exact (dedupeInto_nodup_fresh normalizeWebHit CandidateW.link hlkW web _).1
    · intro x hx1 hx2
      have hxig : x ∈ ig.map hitLink := by
        rw [hch1] at hx1
        exact dedupeInto_links_subset normalizeHit Candidate.link hlkC ig [] x hx1
      exact hweb2seen x hx2 (higseen x hxig)
  · intro url hurl hmem
    exact hweb2seen url hmem (higseen url hurl)
  · intro url
    rw [hch1]
    exact dedupeInto_find normalizeHit Candidate.link hlkC ig [] url
      (List.not_mem_nil url)
  · intro url hurl
    have hnot : url ∉ (dedupeInto normalizeHit ig []).2 := by
      intro hc
      rcases (dedupeInto_seen_mem normalizeHit ig [] url).mp hc with hc | hc
      · exact hurl hc
      · exact (List.not_mem_nil url) hc
    rw [hch2]
    exact dedupeInto_find normalizeWebHit CandidateW.link hlkW web _ url hnot

def c8IgHit : RawHit :=
  { title := "IG A", link := "https://instagram.com/a", snippet := "s1",
    og_description := some "d1", og_image := some "https://img/1",
    cse_image_src := none, searchQuery := "IG: run club" }

def c8WebHitDup : RawHit :=
  { title := "Web A", link := "https://instagram.com/a", snippet := "s2",
    og_description := some "d2", og_image := none,
    cse_image_src := none, searchQuery := "WEB: run club" }

def c8WebHitB : RawHit :=
  { title := "Web B", link := "https://blog.example/top-clubs", snippet := "s3",
    og_description := none, og_image := none,
    cse_image_src := none, searchQuery := "WEB: run club" }

theorem dual_channel_shared_dedupe_witness :
    ("https://instagram.com/a" ∉
      (dedupeChannels [c8IgHit] [c8WebHitDup, c8WebHitB]).2.map CandidateW.link) ∧
    ((dedupeChannels [c8IgHit] [c8WebHitDup, c8WebHitB]).2.find?
        (fun c => c.link == "https://blog.example/top-clubs") =
      ([c8WebHitDup, c8WebHitB].find?
        (fun h => h.link == "https://blog.example/top-clubs")).map normalizeWebHit) :=
  ⟨(dual_channel_shared_dedupe [c8IgHit] [c8WebHitDup, c8WebHitB]).2.1
      "https://instagram.com/a" (by decide),
   (dual_channel_shared_dedupe [c8IgHit] [c8WebHitDup, c8WebHitB]).2.2.2
      "https://blog.example/top-clubs" (by decide)⟩

/-! ## Spec-side models of the merge rule (claims C2 and C6) -/

theorem lowerStr_empty_iff (s : String) : lowerStr s = "" ↔ s = "" := by
  constructor
  · intro h
    have h2 := congrArg String.data h
    simp [lowerStr] at h2
    apply String.ext
    exact h2
  · intro h
    rw [h]
    rfl

/-- Modelled from the claim wording of C2: for each secondary entity, a
non-null identifier is appended iff its lowered form is unseen (and then
marked seen); an entity with no identifier is appended iff no existing
merged item has the same case-insensitive display name. -/
def mergeSpecClaimLoop : List Entity → List String → List Entity → List Entity
  | merged, _, [] => merged
  | merged, seen, w :: rest =>
    match lowOpt w.handle with
    | some h =>
      if h ∈ seen then mergeSpecClaimLoop merged seen rest
      else mergeSpecClaimLoop (merged ++ [w]) (h :: seen) rest
    | none =>
      if merged.any (fun r => lowOpt r.name == lowOpt w.name) then
        mergeSpecClaimLoop merged seen rest
      else mergeSpecClaimLoop (merged ++ [w]) seen rest

/-- Modelled from the claim wording of C2: identifiers seen among the
primary items are the lowered non-null identifiers of the primary list. -/
def mergeSpecClaim (p s : List Entity) : List Entity :=
  mergeSpecClaimLoop p (p.filterMap (fun r => lowOpt r.handle)) s

/-- The amended name branch: an identifier-less secondary entity is
appended iff it has a non-empty display name and no already-merged item
has the same case-insensitive display name. -/
def mergeSpecNameStep (merged : List Entity) (w : Entity) : List Entity :=
  match w.name with
  | some n =>
    if n = "" then merged
    else if merged.any (fun r => lowOpt r.name == some (lowerStr n)) then merged
    else merged ++ [w]
  | none => merged

/-- The amended merge rule: an entity with a non-empty identifier is
appended iff its lowered identifier is unseen (and then marked); an entity
whose identifier is absent or empty goes through the name branch. -/
def mergeSpecAmendedLoop : List Entity → List String → List Entity → List Entity
  | merged, _, [] => merged
  | merged, seen, w :: rest =>
    match w.handle with
    | some hs =>
      if hs = "" then mergeSpecAmendedLoop (mergeSpecNameStep merged w) seen rest
      else if lowerStr hs ∈ seen then mergeSpecAmendedLoop merged seen rest
      else mergeSpecAmendedLoop (merged ++ [w]) (lowerStr hs :: seen) rest
    | none => mergeSpecAmendedLoop (mergeSpecNameStep merged w) seen rest

/-- The lowered non-empty identifiers of the primary list. -/
def mergeSpecSeen (p : List Entity) : List String :=
  p.filterMap (fun r =>
    match r.handle with
    | some hs => if hs = "" then none else some (lowerStr hs)
    | none => none)

def mergeSpecAmended (p s : List Entity) : List Entity :=
  mergeSpecAmendedLoop p (mergeSpecSeen p) s

theorem initialSeen_cons (r : Entity) (rest : List Entity) :
    initialSeen (r :: rest) =
      match r.handle with
      | none => initialSeen rest
      | some hs =>
        if lowerStr hs = "" then initialSeen rest
        else lowerStr hs :: initialSeen rest := by
  cases hr : r.handle with
  | none => simp [initialSeen, lowOpt, hr]
  | some hs =>
    by_cases h0 : lowerStr hs = ""
    · simp [initialSeen, lowOpt, hr, List.filter_cons, h0]
    · simp [initialSeen, lowOpt, hr, List.filter_cons, h0]

/-- The initial seen set built by the source coincides with the lowered
non-empty identifiers of the primary list. -/
theorem initialSeen_eq_spec (p : List Entity) : initialSeen p = mergeSpecSeen p := by
  induction p with
  | nil => rfl
  | cons r rest ih =>
    rw [initialSeen_cons]
    cases hr : r.handle with
    | none => simpa [mergeSpecSeen, List.filterMap_cons, hr] using ih
    | some hs =>
      by_cases hs0 : hs = ""
      · subst hs0
        have h0 : lowerStr "" = "" := rfl
        simpa [mergeSpecSeen, List.filterMap_cons, hr, h0] using ih
      · have hls : ¬ lowerStr hs = "" := fun hc => hs0 ((lowerStr_empty_iff hs).mp hc)
        simpa [mergeSpecSeen, List.filterMap_cons, hr, hs0, hls] using ih

/-- When every merged entity has a name, the some-scan never throws and
computes the boolean any of the lowered-name comparison. -/
theorem someNameLower_names (key : String) :
    ∀ merged : List Entity, (∀ r ∈ merged, r.name ≠ none) →
      someNameLower key merged =
        Except.ok (merged.any (fun r => lowOpt r.name == some key)) := by
  intro merged
  induction merged with
  | nil => intro _; rfl
  | cons r rest ih =>
    intro hn
    cases hrn : r.name with
    | none => exact absurd hrn (hn r (List.mem_cons_self r rest))
    | some n =>
      by_cases hk : lowerStr n == key
      · simp [someNameLower, hrn, hk, lowOpt]
      · simp only [someNameLower, hrn, List.any_cons]
        rw [ih (fun b hb => hn b (List.mem_cons_of_mem r hb))]
        have hk2 : ¬ lowerStr n = key := by simpa using hk
        simp [lowOpt, hk2, hk]

/-- Under the same hypothesis the name branch of the source agrees with the
amended spec name step and never throws. -/
theorem mergeStepName_names (merged : List Entity) (seen : List String)
    (w : Entity) (hm : ∀ r ∈ merged, r.name ≠ none) (hw : w.name ≠ none) :
    mergeStepName merged seen w = Except.ok (mergeSpecNameStep merged w, seen) := by
  cases hwn : w.name with
  | none => exact absurd hwn hw
  | some n =>
    by_cases hn0 : n = ""
    · simp [mergeStepName, mergeSpecNameStep, hwn, hn0]
    · rw [mergeStepName, mergeSpecNameStep]
      simp only [hwn, if_neg hn0]
      rw [someNameLower_names (lowerStr n) merged hm]
      by_cases hany : merged.any (fun r => lowOpt r.name == some (lowerStr n))
      · simp [hany]
      · simp [hany]

theorem mergeSpecNameStep_mem (merged : List Entity) (w : Entity) :
    ∀ r ∈ mergeSpecNameStep merged w, r ∈ merged ∨ r = w := by
  intro r hr
  rcases hwn : w.name with _ | n
  · simp only [mergeSpecNameStep, hwn] at hr
    exact Or.inl hr
  · simp only [mergeSpecNameStep, hwn] at hr
    by_cases hn0 : n = ""
    · rw [if_pos hn0] at hr
      exact Or.inl hr
    · rw [if_neg hn0] at hr
      by_cases hany : merged.any (fun r => lowOpt r.name == some (lowerStr n))
      · rw [if_pos hany] at hr
        exact Or.inl hr
      · rw [if_neg hany] at hr
        rcases List.mem_append.mp hr with hr | hr
        · exact Or.inl hr
        · exact Or.inr (List.mem_singleton.mp hr)

/-- When every entity in the current accumulator and in the remaining
secondary list carries a display name, the source merge loop never throws
and computes the amended spec loop. -/
theorem mergeLoop_eq_specAmended :
    ∀ (s merged : List Entity) (seen : List String),
      (∀ r ∈ merged, r.name ≠ none) → (∀ r ∈ s, r.name ≠ none) →
      mergeLoop merged seen s = Except.ok (mergeSpecAmendedLoop merged seen s) := by
  intro s
  induction s with
  | nil => intro merged seen _ _; rfl
  | cons w rest ih =>
    intro merged seen hm hs
    have hw : w.name ≠ none := hs w (List.mem_cons_self w rest)
    have hrest : ∀ r ∈ rest, r.name ≠ none :=
      fun r hr => hs r (List.mem_cons_of_mem w hr)
    have hmw : ∀ r ∈ merged ++ [w], r.name ≠ none := by
      intro r hr
      rcases List.mem_append.mp hr with hr | hr
      · exact hm r hr
      · rw [List.mem_singleton.mp hr]
        exact hw
    have hmstep : ∀ r ∈ mergeSpecNameStep merged w, r.name ≠ none := by
      intro r hr
      rcases mergeSpecNameStep_mem merged w r hr with hr | hr
      · exact hm r hr
      · rw [hr]
        exact hw
    cases hwh : w.handle with
    | none =>
      simp only [mergeLoop, mergeSpecAmendedLoop, lowOpt, hwh, Option.map_none']
      rw [mergeStepName_names merged seen w hm hw]
      exact ih (mergeSpecNameStep merged w) seen hmstep hrest
    | some hs0 =>
      by_cases h0 : hs0 = ""
      · subst h0
        have hll : lowerStr "" = "" := rfl
        simp only [mergeLoop, mergeSpecAmendedLoop, lowOpt, hwh, Option.map_some',
          hll, eq_self_iff_true, if_true]
        rw [mergeStepName_names merged seen w hm hw]
        exact ih (mergeSpecNameStep merged w) seen hmstep hrest
      · have hl0 : ¬ lowerStr hs0 = "" :=
          fun hc => h0 ((lowerStr_empty_iff hs0).mp hc)
        simp only [mergeLoop, mergeSpecAmendedLoop, lowOpt, hwh, Option.map_some',
          if_neg hl0, if_neg h0]
        by_cases hseen : lowerStr hs0 ∈ seen
        · simp only [if_pos hseen]
          exact ih merged seen hm hrest
        · simp only [if_neg hseen]
          exact ih (merged ++ [w]) (lowerStr hs0 :: seen) hmw hrest

/-! ## Claim C2: the merge rule -/

def c2EntA : Entity :=
  { name := some "A", handle := some "a", category := none, subcategory := none,
    followers := none, logo := none, reasoning := none, url := none }

def c2EntB : Entity :=
  { name := some "B", handle := some "b", category := none, subcategory := none,
    followers := none, logo := none, reasoning := none, url := none }

def c2EntA2 : Entity :=
  { name := some "A again", handle := some "a", category := none, subcategory := none,
    followers := none, logo := none, reasoning := none, url := none }

def c2EntC : Entity :=
  { name := some "C", handle := some "c", category := none, subcategory := none,
    followers := none, logo := none, reasoning := none, url := none }

def c2VR : Entity :=
  { name := some "Vizag Runners", handle := none, category := none, subcategory := none,
    followers := none, logo := none, reasoning := none, url := none }

def c2vrLower : Entity :=
  { name := some "vizag runners", handle := none, category := none, subcategory := none,
    followers := none, logo := none, reasoning := none, url := none }

def c2PrimX : Entity :=
  { name := some "X", handle := some "a", category := none, subcategory := none,
    followers := none, logo := none, reasoning := none, url := none }

def c2SecEmptyHandle : Entity :=
  { name := some "x", handle := some "", category := none, subcategory := none,
    followers := none, logo := none, reasoning := none, url := none }

/-- C2 counterexample: a secondary entity with the non-null identifier ""
(unseen among all identifiers) is **not** appended and its identifier is
not marked seen; the code tests truthiness, not non-nullness, so the
empty-string identifier falls into the display-name branch and is dropped
by a case-insensitive name collision, while the claim as stated appends
it.  Both evaluations are at the explicit input primary = one entity with
identifier a and name X, secondary = one entity with identifier "" and
name x. -/
theorem merge_identifier_truthiness_counterexample :
    c2SecEmptyHandle.handle = some "" ∧
    mergeResults [c2PrimX] [c2SecEmptyHandle] = Except.ok [c2PrimX] ∧
    mergeSpecClaim [c2PrimX] [c2SecEmptyHandle] = [c2PrimX, c2SecEmptyHandle] ∧
    mergeResults [c2PrimX] [c2SecEmptyHandle] ≠
      Except.ok (mergeSpecClaim [c2PrimX] [c2SecEmptyHandle]) := by
  refine ⟨rfl, by decide, by decide, by decide⟩

/-- C2 (amended): the merger starts from the primary list verbatim and,
for each secondary entity in order: if it has a non-empty identifier not
yet seen case-insensitively among the non-empty identifiers of primary or
already-merged secondary items, it is appended and the identifier marked
seen, otherwise (identifier present-and-non-empty but seen) it is dropped;
if its identifier is absent **or empty**, it is appended only when it has
a non-empty display name and no existing merged item has the same
case-insensitive display name (so identifier-less entities without a
display name are dropped).  Stated for inputs whose entities all carry a
display name, since otherwise the name scan can throw (claim C10).  The
two concrete examples of the claim hold as written. -/
theorem merge_rule_amended :
    (∀ p s : List Entity, (∀ r ∈ p, r.name ≠ none) → (∀ r ∈ s, r.name ≠ none) →
      mergeResults p s = Except.ok (mergeSpecAmended p s)) ∧
    mergeResults [c2EntA, c2EntB] [c2EntA2, c2EntC] =
      Except.ok [c2EntA, c2EntB, c2EntC] ∧
    mergeResults [c2VR] [c2vrLower] = Except.ok [c2VR] := by
  refine ⟨?_, by decide, by decide⟩
  intro p s hp hs
  rw [mergeResults, initialSeen_eq_spec]
  exact mergeLoop_eq_specAmended s p (mergeSpecSeen p) hp hs

theorem merge_rule_amended_witness :
    mergeResults [c2PrimX] [c2SecEmptyHandle] =
      Except.ok (mergeSpecAmended [c2PrimX] [c2SecEmptyHandle]) :=
  merge_rule_amended.1 [c2PrimX] [c2SecEmptyHandle] (by decide) (by decide)

/-! ## Claim C6: uniqueness of the merged list -/

/-- The pairwise distinctness the merged-list invariant asks for: two
entities with truthy identifiers differ on the lowered identifier, and two
named entities without truthy identifiers differ on the lowered name. -/
def EntDistinct (a b : Entity) : Prop :=
  (truthyS a.handle = true → truthyS b.handle = true →
    lowOpt a.handle ≠ lowOpt b.handle) ∧
  (truthyS a.handle = false → truthyS b.handle = false →
    a.name ≠ none → b.name ≠ none → lowOpt a.name ≠ lowOpt b.name)

def MergedUnique (l : List Entity) : Prop := l.Pairwise EntDistinct

theorem truthyS_false_of_lowOpt_none (x : Option String) (h : lowOpt x = none) :
    truthyS x = false := by
  cases x with
  | none => rfl
  | some s => simp [lowOpt] at h

theorem truthyS_false_of_lowOpt_empty (x : Option String) (h : lowOpt x = some "") :
    truthyS x = false := by
  cases x with
  | none => simp [lowOpt] at h
  | some s =>
    simp only [lowOpt, Option.map_some', Option.some.injEq] at h
    have hs : s = "" := (lowerStr_empty_iff s).mp h
    simp [truthyS, hs]

theorem truthyS_true_of_lowOpt_ne (x : Option String) (k : String)
    (h : lowOpt x = some k) (hk : k ≠ "") : truthyS x = true := by
  cases x with
  | none => simp [lowOpt] at h
  | some s =>
    simp only [lowOpt, Option.map_some', Option.some.injEq] at h
    have hs : ¬ s = "" := by
      intro hc
      subst hc
      exact hk h.symm
    simp [truthyS, hs]

theorem mergeStepName_cases (merged : List Entity) (seen : List String)
    (w : Entity) (p : List Entity × List String)
    (h : mergeStepName merged seen w = Except.ok p) :
    p = (merged, seen) ∨
    ∃ n, w.name = some n ∧ n ≠ "" ∧
      someNameLower (lowerStr n) merged = Except.ok false ∧
      p = (merged ++ [w], seen) := by
  cases hwn : w.name with
  | none =>
    simp only [mergeStepName, hwn] at h
    injection h with h
    exact Or.inl h.symm
  | some n =>
    by_cases hn0 : n = ""
    · simp only [mergeStepName, hwn, if_pos hn0] at h
      injection h with h
      exact Or.inl h.symm
    · simp only [mergeStepName, hwn, if_neg hn0] at h
      cases hsn : someNameLower (lowerStr n) merged with
      | error e => rw [hsn] at h; cases h
      | ok b =>
        rw [hsn] at h
        cases b with
        | true =>
          injection h with h
          exact Or.inl h.symm
        | false =>
          injection h with h
          exact Or.inr ⟨n, rfl, hn0, hsn, h.symm⟩

theorem someNameLower_false_forall (key : String) :
    ∀ merged : List Entity, someNameLower key merged = Except.ok false →
      ∀ r ∈ merged, ∃ m, r.name = some m ∧ lowerStr m ≠ key := by
  intro merged
  induction merged with
  | nil => intro _ r hr; cases hr
  | cons r0 rest ih =>
    intro h r hr
    cases hrn : r0.name with
    | none => simp [someNameLower, hrn] at h
    | some n =>
      by_cases hk : lowerStr n = key
      · simp [someNameLower, hrn, hk] at h
      · have hkb : ¬ ((lowerStr n == key) = true) := by simpa using hk
        simp only [someNameLower, hrn, if_neg hkb] at h
        rcases List.mem_cons.mp hr with hr | hr
        · subst hr
          exact ⟨n, hrn, hk⟩
        · exact ih h r hr

theorem mergedUnique_append_single (merged : List Entity) (w : Entity)
    (hm : MergedUnique merged) (hw : ∀ a ∈ merged, EntDistinct a w) :
    MergedUnique (merged ++ [w]) := by
  rw [MergedUnique, List.pairwise_append]
  refine ⟨hm, List.pairwise_singleton _ _, ?_⟩
  intro a ha b hb
  rw [List.mem_singleton.mp hb]
  exact hw a ha

/-- The invariant threading the seen set: every non-empty lowered
identifier present in the accumulator is recorded in the seen set. -/
def SeenInv (merged : List Entity) (seen : List String) : Prop :=
  ∀ e ∈ merged, ∀ k, lowOpt e.handle = some k → k ≠ "" → k ∈ seen

theorem seenInv_extend_falsy (merged : List Entity) (seen : List String)
    (w : Entity) (htw : truthyS w.handle = false)
    (hinv : SeenInv merged seen) : SeenInv (merged ++ [w]) seen := by
  intro e he k hk hk0
  rcases List.mem_append.mp he with he | he
  · exact hinv e he k hk hk0
  · rw [List.mem_singleton.mp he] at hk
    have := truthyS_true_of_lowOpt_ne w.handle k hk hk0
    rw [this] at htw
    cases htw

theorem entDistinct_name_append (merged : List Entity) (w : Entity) (n : String)
    (htw : truthyS w.handle = false) (hwn : w.name = some n)
    (hfalse : someNameLower (lowerStr n) merged = Except.ok false) :
    ∀ a ∈ merged, EntDistinct a w := by
  intro a ha
  obtain ⟨m, ham, hne⟩ := someNameLower_false_forall (lowerStr n) merged hfalse a ha
  constructor
  · intro _ hbw
    rw [htw] at hbw
    cases hbw
  · intro _ _ _ _ heq
    simp only [lowOpt, ham, hwn, Option.map_some', Option.some.injEq] at heq
    exact hne heq

/-- Preservation of the uniqueness invariant along the merge loop. -/
theorem mergeLoop_unique :
    ∀ (s merged : List Entity) (seen : List String) (out : List Entity),
      mergeLoop merged seen s = Except.ok out →
      MergedUnique merged → SeenInv merged seen →
      MergedUnique out := by
  intro s
  induction s with
  | nil =>
    intro merged seen out h hm _
    injection h with h
    rwa [← h]
  | cons w rest ih =>
    intro merged seen out h hm hinv
    cases hwh : lowOpt w.handle with
    | none =>
      have htw := truthyS_false_of_lowOpt_none w.handle hwh
      simp only [mergeLoop, hwh] at h
      cases hstep : mergeStepName merged seen w with
      | error e => rw [hstep] at h; cases h
      | ok p =>
        rw [hstep] at h
        rcases mergeStepName_cases merged seen w p hstep with hp | ⟨n, hwn, hn0, hfalse, hp⟩
        · subst hp
          exact ih merged seen out h hm hinv
        · subst hp
          exact ih (merged ++ [w]) seen out h
            (mergedUnique_append_single merged w hm
              (entDistinct_name_append merged w n htw hwn hfalse))
            (seenInv_extend_falsy merged seen w htw hinv)
    | some h0 =>
      by_cases h00 : h0 = ""
      · subst h00
        have htw := truthyS_false_of_lowOpt_empty w.handle hwh
        simp only [mergeLoop, hwh, eq_self_iff_true, if_true] at h
        cases hstep : mergeStepName merged seen w with
        | error e => rw [hstep] at h; cases h
        | ok p =>
          rw [hstep] at h
          rcases mergeStepName_cases merged seen w p hstep with hp | ⟨n, hwn, hn0, hfalse, hp⟩
          · subst hp
            exact ih merged seen out h hm hinv
          · subst hp
            exact ih (merged ++ [w]) seen out h
              (mergedUnique_append_single merged w hm
                (entDistinct_name_append merged w n htw hwn hfalse))
              (seenInv_extend_falsy merged seen w htw hinv)
      · have htw := truthyS_true_of_lowOpt_ne w.handle h0 hwh h00
        simp only [mergeLoop, hwh, if_neg h00] at h
        by_cases hin : h0 ∈ seen
        · rw [if_pos hin] at h
          exact ih merged seen out h hm hinv
        · rw [if_neg hin] at h
          refine ih (merged ++ [w]) (h0 :: seen) out h ?_ ?_
          · apply mergedUnique_append_single merged w hm
            intro a ha
            constructor
            · intro _ _ heq
              rw [hwh] at heq
              exact hin (hinv a ha h0 heq h00)
            · intro _ hfw
              rw [htw] at hfw
              cases hfw
          · intro e he k hk hk0
            rcases List.mem_append.mp he with he | he
            · exact List.mem_cons_of_mem _ (hinv e he k hk hk0)
            · rw [List.mem_singleton.mp he] at hk
              rw [hwh] at hk
              injection hk with hk
              rw [← hk]
              exact List.mem_cons_self _ _

instance entDistinctDecidable (a b : Entity) : Decidable (EntDistinct a b) :=
  inferInstanceAs (Decidable (And _ _))

instance mergedUniqueDecidable (l : List Entity) : Decidable (MergedUnique l) :=
  inferInstanceAs (Decidable (l.Pairwise EntDistinct))

theorem seenInv_initial (p : List Entity) : SeenInv p (initialSeen p) := by
  intro e he k hk hk0
  rw [initialSeen, List.mem_filter]
  constructor
  · rw [List.mem_filterMap]
    exact ⟨some k, List.mem_map.mpr ⟨e, he, hk⟩, rfl⟩
  · simpa using hk0

/-- C6 counterexample: the merge starts from the primary list verbatim, so
a primary list that repeats an identifier (here a and A, equal
case-insensitively) survives into the output unchanged even with an empty
secondary list, and the output is not unique by case-insensitive
identifier; the claim including-repeated-primary-identifiers is false. -/
theorem merged_uniqueness_counterexample :
    mergeResults
      [{ name := some "Club One", handle := some "a", category := none,
         subcategory := none, followers := none, logo := none,
         reasoning := none, url := none },
       { name := some "Club Two", handle := some "A", category := none,
         subcategory := none, followers := none, logo := none,
         reasoning := none, url := none }] [] =
      Except.ok
        [{ name := some "Club One", handle := some "a", category := none,
           subcategory := none, followers := none, logo := none,
           reasoning := none, url := none },
         { name := some "Club Two", handle := some "A", category := none,
           subcategory := none, followers := none, logo := none,
           reasoning := none, url := none }] ∧
    ¬ MergedUnique
      [{ name := some "Club One", handle := some "a", category := none,
         subcategory := none, followers := none, logo := none,
         reasoning := none, url := none },
       { name := some "Club Two", handle := some "A", category := none,
         subcategory := none, followers := none, logo := none,
         reasoning := none, url := none }] := by
  refine ⟨by decide, by decide⟩

/-- C6 (amended): the merged output list is unique by case-insensitive
identifier among entities with a truthy (non-null, non-empty) identifier
and unique by case-insensitive display name among named entities without
one, for every pair of classified lists **whose primary list already
satisfies that invariant**; when the primary list itself repeats an
identifier the duplicates are preserved (see the counterexample). -/
theorem merged_uniqueness_amended :
    ∀ (p s out : List Entity), mergeResults p s = Except.ok out →
      MergedUnique p → MergedUnique out := by
  intro p s out h hp
  exact mergeLoop_unique s p (initialSeen p) out h hp (seenInv_initial p)

theorem merged_uniqueness_amended_witness :
    MergedUnique [c2EntA, c2EntC] :=
  merged_uniqueness_amended [c2EntA] [c2EntC] [c2EntA, c2EntC]
    (by decide) (by decide)

/-! ## Claim C10: missing display names and the merge throw -/

theorem someNameLower_error_of (key : String) :
    ∀ (pre : List Entity) (b : Entity) (post : List Entity),
      b.name = none →
      (∀ a ∈ pre, ∃ m, a.name = some m ∧ lowerStr m ≠ key) →
      someNameLower key (pre ++ b :: post) = Except.error () := by
  intro pre
  induction pre with
  | nil =>
    intro b post hb _
    simp [someNameLower, hb]
  | cons a rest ih =>
    intro b post hb hall
    obtain ⟨m, ham, hm⟩ := hall a (List.mem_cons_self a rest)
    have hmb : ¬ ((lowerStr m == key) = true) := by simpa using hm
    simp only [List.cons_append, someNameLower, ham, if_neg hmb]
    exact ih b post hb (fun x hx => hall x (List.mem_cons_of_mem a hx))

theorem lowOpt_empty_of_falsy (x : Option String) (h0 : String)
    (htw : truthyS x = false) (hlow : lowOpt x = some h0) : h0 = "" := by
  cases x with
  | none => simp [lowOpt] at hlow
  | some s =>
    have hs : s = "" := by
      by_cases hc : s = ""
      · exact hc
      · simp [truthyS, hc] at htw
    subst hs
    simp only [lowOpt, Option.map_some', Option.some.injEq] at hlow
    exact hlow.symm

/-- C10 counterexample: the name-collision scan short-circuits at the first
case-insensitive match, so a merged entity with a missing name that sits
after a matching one is never dereferenced and the merge succeeds; the
claim that the merge throws whenever the model returned any entity with a
missing name is false at this input (primary = a named entity X followed
by a nameless one, secondary = one identifier-less entity named x). -/
theorem merge_throw_counterexample :
    ({ name := none, handle := some "b", category := none, subcategory := none,
       followers := none, logo := none, reasoning := none,
       url := none } : Entity).name = none ∧
    mergeResults
      [{ name := some "X", handle := some "a", category := none, subcategory := none,
         followers := none, logo := none, reasoning := none, url := none },
       { name := none, handle := some "b", category := none, subcategory := none,
         followers := none, logo := none, reasoning := none, url := none }]
      [{ name := some "x", handle := none, category := none, subcategory := none,
         followers := none, logo := none, reasoning := none, url := none }] =
    Except.ok
      [{ name := some "X", handle := some "a", category := none, subcategory := none,
         followers := none, logo := none, reasoning := none, url := none },
       { name := none, handle := some "b", category := none, subcategory := none,
         followers := none, logo := none, reasoning := none, url := none }] := by
  refine ⟨rfl, by decide⟩

/-- C10 (amended): the implicit precondition of the merge step is that
every already-merged entity scanned before a name match has a string
display name.  When an identifier-less (or empty-identifier) secondary
entity with a non-empty name is considered, the name-collision check walks
the merged list in order and throws exactly upon reaching an entity with a
missing name before any case-insensitive match; the throw escapes the
per-batch error recovery and the v3.0 endpoint turns the whole request
into a request-level 500 failure instead of a partial result. -/
theorem merge_throw_amended :
    (∀ (pre : List Entity) (b : Entity) (post : List Entity) (w : Entity)
        (n : String) (rest : List Entity),
      truthyS w.handle = false → w.name = some n → n ≠ "" →
      b.name = none →
      (∀ a ∈ pre, ∃ m, a.name = some m ∧ lowerStr m ≠ lowerStr n) →
      mergeResults (pre ++ b :: post) (w :: rest) = Except.error ()) ∧
    (∀ (O : Oracles) (q : String), q ≠ "" →
      (v3Unique O q).1.length + (v3Unique O q).2.length ≠ 0 →
      v3Merge O q = Except.error () →
      omniSearchV3 O q = Response.serverError) := by
  constructor
  · intro pre b post w n rest htw hwn hn0 hb hall
    have hstep : mergeStepName (pre ++ b :: post) (initialSeen (pre ++ b :: post)) w =
        Except.error () := by
      simp only [mergeStepName, hwn, if_neg hn0]
      rw [someNameLower_error_of (lowerStr n) pre b post hb hall]
    rw [mergeResults]
    cases hwh : lowOpt w.handle with
    | none => simp only [mergeLoop, hwh, hstep]
    | some h0 =>
      have h00 : h0 = "" := lowOpt_empty_of_falsy w.handle h0 htw hwh
      subst h00
      simp only [mergeLoop, hwh, eq_self_iff_true, if_true, hstep]
  · intro O q hq hne hmerge
    simp only [omniSearchV3, if_neg hq, if_neg hne, hmerge]

def c10ItemIg : SearchItem :=
  { title := "Run Club Vizag", link := "https://instagram.com/runclubvizag",
    snippet := "sn", og_description := some "2k Followers",
    og_image := some "https://img/ig.jpg", cse_image_src := none }

def c10ItemWeb : SearchItem :=
  { title := "Top 10 Run Clubs", link := "https://blog.example/top10",
    snippet := "sn2", og_description := none, og_image := none,
    cse_image_src := none }

def c10EntNoName : Entity :=
  { name := none, handle := some "b", category := some "Run Club",
    subcategory := none, followers := none, logo := none,
    reasoning := none, url := none }

def c10EntWeb : Entity :=
  { name := some "New Club", handle := none, category := some "Run Club",
    subcategory := none, followers := none, logo := none,
    reasoning := some "Mentioned in listicle article", url := none }

def c10Oracles : Oracles :=
  { gen := fun _ p =>
      if p = expandPromptV3 "run clubs" then Except.ok "EXPRAW"
      else if p = classifyPromptIg "run clubs" (some "Vizag") "IGDATA" then
        Except.ok "IGRAW"
      else Except.ok "WEBRAW"
    parseExpansion := fun s =>
      if s = "EXPRAW" then
        some { location := some "Vizag", intent := some "discover run clubs",
               queries := some ["run club Vizag"] }
      else none
    parseEntities := fun s =>
      if s = "IGRAW" then some [c10EntNoName]
      else if s = "WEBRAW" then some [c10EntWeb]
      else none
    stringifyCands := fun _ => "IGDATA"
    stringifyWeb := fun _ => "WEBDATA"
    search := fun fq start =>
      if start = 1 then
        if fq = "site:instagram.com run club Vizag" then Except.ok [c10ItemIg]
        else Except.ok [c10ItemWeb]
      else Except.error "quota"
    envGemini := true
    envSearchKey := true
    envCx := true }

set_option maxRecDepth 100000 in
theorem merge_throw_amended_witness :
    mergeResults [c10EntNoName] [c10EntWeb] = Except.error () ∧
    omniSearchV3 c10Oracles "run clubs" = Response.serverError :=
  ⟨merge_throw_amended.1 [] c10EntNoName [] c10EntWeb "New Club" []
      rfl rfl (by decide) rfl
      (fun a ha => absurd ha (List.not_mem_nil a)),
   merge_throw_amended.2 c10Oracles "run clubs" (by decide) (by decide) (by decide)⟩

/-! ## Claim C7: debug.errors and silent sub-operation failures -/

def c7Item : SearchItem :=
  { title := "Run Vizag", link := "https://instagram.com/runvizag",
    snippet := "sn", og_description := some "12.5K Followers",
    og_image := some "https://img/logo.jpg", cse_image_src := none }

def c7Ent : Entity :=
  { name := some "Run Vizag", handle := some "@runvizag",
    category := some "Run Club", subcategory := some "Running",
    followers := some "12.5k", logo := none,
    reasoning := some "Active run club", url := some "https://instagram.com/runvizag" }

def c7Oracles : Oracles :=
  { gen := fun _ p =>
      if p = expandPrompt "run" then Except.ok "EXPRAW" else Except.ok "ENTRAW"
    parseExpansion := fun s =>
      if s = "EXPRAW" then
        some { location := some "Vizag", intent := some "discover clubs",
               queries := some ["run club Vizag"] }
      else none
    parseEntities := fun s => if s = "ENTRAW" then some [c7Ent] else none
    stringifyCands := fun _ => "DATA"
    stringifyWeb := fun _ => "WDATA"
    search := fun _ start =>
      if start = 1 then Except.ok [c7Item] else Except.error "quota"
    envGemini := true
    envSearchKey := true
    envCx := true }

set_option maxRecDepth 100000 in
/-- C7 counterexample: a run in which an individual search-page request
fails (the second page throws a quota error) while the overall request
succeeds with a non-empty result list, yet the response carries no debug
field at all: the per-page catch only logs to the console and returns an
empty page, and nothing is appended to the request-level errors array, so
debug.errors is neither present nor populated. -/
theorem debug_errors_counterexample :
    c7Oracles.search "site:instagram.com run club Vizag" 11 = Except.error "quota" ∧
    (omniSearch c7Oracles "run").isSuccess = true ∧
    (omniSearch c7Oracles "run").resultsList ≠ [] ∧
    (omniSearch c7Oracles "run").debugInfo = none := by
  refine ⟨rfl, by decide, by decide, by decide⟩

/-- C7 (amended): individual page failures and classification-batch
failures are absorbed locally (empty page or empty batch, console log
only) and are never appended to the request-level errors array, which can
only be fed by the catch handlers around the whole expansion or search
calls and stays empty whenever provider failures carry message strings.
Consequently, on every successful v2.0 response the debug field is either
absent entirely, or (exactly on the empty-candidates branch) present with
its errors list defaulted to the fixed hint message. -/
theorem debug_errors_amended :
    ∀ (O : Oracles) (q : String),
      (omniSearch O q).isSuccess = true →
      (omniSearch O q).debugInfo = none ∨
        ((omniSearch O q).resultsList = [] ∧
         (omniSearch O q).debugInfo = some (v2EmptyDebug O []) ∧
         (v2EmptyDebug O []).errors = [emptyHint]) := by
  intro O q hs
  by_cases hq : q = ""
  · simp [omniSearch, hq, Response.isSuccess] at hs
  · by_cases hc : omniCandidates O q = []
    · refine Or.inr ⟨?_, ?_, ?_⟩
      · simp [omniSearch, hq, hc, Response.resultsList]
      · simp [omniSearch, hq, hc, Response.debugInfo]
      · simp [v2EmptyDebug]
    · refine Or.inl ?_
      simp [omniSearch, hq, hc, Response.debugInfo]

set_option maxRecDepth 100000 in
theorem debug_errors_amended_witness :
    (omniSearch c7Oracles "run").debugInfo = none ∨
      ((omniSearch c7Oracles "run").resultsList = [] ∧
       (omniSearch c7Oracles "run").debugInfo = some (v2EmptyDebug c7Oracles []) ∧
       (v2EmptyDebug c7Oracles []).errors = [emptyHint]) :=
  debug_errors_amended c7Oracles "run" (by decide)

/-! ## Claim C9: the empty-candidates response -/

/-- C9: when zero candidates survive search plus deduplication (in either
server version), the endpoint returns a successful response with an empty
result list, a debug object whose errors list defaults to the non-empty
hint message when no request-level errors were recorded, and an env_check
reporting the presence of each of the three required external
configuration values. -/
theorem empty_candidates_response :
    ∀ (O : Oracles) (q : String), q ≠ "" →
      (omniCandidates O q = [] →
        (omniSearch O q).isSuccess = true ∧
        (omniSearch O q).resultsList = [] ∧
        (omniSearch O q).debugInfo =
          some { message := some emptyMessage
                 errors := [emptyHint]
                 env_check := some { gemini := O.envGemini
                                     searchKey := O.envSearchKey
                                     cx := O.envCx } } ∧
        [emptyHint] ≠ ([] : List String)) ∧
      ((v3Unique O q).1.length + (v3Unique O q).2.length = 0 →
        (omniSearchV3 O q).isSuccess = true ∧
        (omniSearchV3 O q).resultsList = [] ∧
        (omniSearchV3 O q).debugInfo =
          some { message := some emptyMessage
                 errors := [emptyHint]
                 env_check := some { gemini := O.envGemini
                                     searchKey := O.envSearchKey
                                     cx := O.envCx } }) := by
  intro O q hq
  constructor
  · intro hc
    refine ⟨?_, ?_, ?_, by decide⟩
    · simp [omniSearch, hq, hc, Response.isSuccess]
    · simp [omniSearch, hq, hc, Response.resultsList]
    · simp [omniSearch, hq, hc, Response.debugInfo, v2EmptyDebug, emptyMessage, emptyHint]
  · intro hc
    refine ⟨?_, ?_, ?_⟩
    · simp [omniSearchV3, hq, hc, Response.isSuccess]
    · simp [omniSearchV3, hq, hc, Response.resultsList]
    · simp [omniSearchV3, hq, hc, Response.debugInfo, v2EmptyDebug, emptyMessage, emptyHint]

def c9Oracles : Oracles :=
  { gen := fun _ _ => Except.error "model down"
    parseExpansion := fun _ => none
    parseEntities := fun _ => none
    stringifyCands := fun _ => "[]"
    stringifyWeb := fun _ => "[]"
    search := fun _ _ => Except.error "search provider down"
    envGemini := true
    envSearchKey := false
    envCx := false }

set_option maxRecDepth 1000000 in
theorem empty_candidates_response_witness :
    ((omniSearch c9Oracles "run clubs in Vizag").isSuccess = true ∧
     (omniSearch c9Oracles "run clubs in Vizag").resultsList = [] ∧
     (omniSearch c9Oracles "run clubs in Vizag").debugInfo =
       some { message := some emptyMessage
              errors := [emptyHint]
              env_check := some { gemini := true, searchKey := false, cx := false } } ∧
     [emptyHint] ≠ ([] : List String)) ∧
    ((omniSearchV3 c9Oracles "run clubs in Vizag").isSuccess = true ∧
     (omniSearchV3 c9Oracles "run clubs in Vizag").resultsList = [] ∧
     (omniSearchV3 c9Oracles "run clubs in Vizag").debugInfo =
       some { message := some emptyMessage
              errors := [emptyHint]
              env_check := some { gemini := true, searchKey := false, cx := false } }) :=
  ⟨(empty_candidates_response c9Oracles "run clubs in Vizag" (by decide)).1 (by decide),
   (empty_candidates_response c9Oracles "run clubs in Vizag" (by decide)).2 (by decide)⟩
